import Mathlib

/-!
# Galaxia: request dispatch and response synthesis (lib/app/AppComponents.js)

A shallow embedding of the class AppComponents: the request classifier and
dispatcher (parseRequest), the full-page path (#processRequestAsHtmlPage), the
data path (#processRequestAsXhr), the error envelope builder
(#respondWithError), the early-hint emitter (#sendEarlyHints) and the asset
stringifier (#stringifyComponentsAssets).

Stateful code is written in state-passing style. The response object is a
record of its observable state together with the ordered list of the writes
performed on it. Every awaited collaborator call takes the current state and
returns the state at the moment control resumes, so a response that is ended
while the core is suspended is covered by the collaborator functions.
-/

namespace AppComponents

/-! ## JavaScript values and JSON.stringify -/

mutual
/-- A fragment of the JavaScript values: the values the module itself builds
(the error envelope, with its integer status code) and simple payloads. The
model of JSON.stringify below is the builtin on the values accepted by
JsValue.inFragment; values outside the fragment are handled as OtherValue. -/
inductive JsValue where
  | undefined
  | null
  | bool (b : Bool)
  | num (n : Int)
  | str (s : String)
  | arr (items : JsList)
  | obj (members : JsMembers)
/-- Elements of a JavaScript array, in index order. -/
inductive JsList where
  | nil
  | cons (v : JsValue) (rest : JsList)
/-- Own enumerable properties of a JavaScript object, in insertion order. -/
inductive JsMembers where
  | nil
  | cons (key : String) (v : JsValue) (rest : JsMembers)
end

/-- JavaScript truthiness (the test of a conditional). -/
def JsValue.truthy : JsValue → Bool
  | .undefined => false
  | .null => false
  | .bool b => b
  | .num n => n != 0
  | .str s => s != ""
  | .arr _ => true
  | .obj _ => true

/-- Lower-case hexadecimal digit of a number below sixteen. -/
def hexDigit (n : Nat) : Char :=
  if n < 10 then Char.ofNat (48 + n) else Char.ofNat (87 + n)

/-- JSON escaping of one character, as JSON.stringify quotes a string. -/
def quoteJsonChar (c : Char) : List Char :=
  if c.toNat = 34 then [Char.ofNat 92, Char.ofNat 34]
  else if c.toNat = 92 then [Char.ofNat 92, Char.ofNat 92]
  else if c.toNat = 8 then [Char.ofNat 92, 'b']
  else if c.toNat = 12 then [Char.ofNat 92, 'f']
  else if c.toNat = 10 then [Char.ofNat 92, 'n']
  else if c.toNat = 13 then [Char.ofNat 92, 'r']
  else if c.toNat = 9 then [Char.ofNat 92, 't']
  else if c.toNat < 32 then
    [Char.ofNat 92, 'u', '0', '0', hexDigit (c.toNat / 16), hexDigit (c.toNat % 16)]
  else [c]

/-- JSON.stringify of a primitive string: the escaped text between double quotes. -/
def quoteJsonString (s : String) : String :=
  ⟨Char.ofNat 34 :: (s.data.flatMap quoteJsonChar ++ [Char.ofNat 34])⟩

mutual
/-- JSON.stringify: none stands for the result undefined. -/
def jsonStringify : JsValue → Option String
  | .undefined => none
  | .null => some "null"
  | .bool b => some (if b then "true" else "false")
  | .num n => some (toString n)
  | .str s => some (quoteJsonString s)
  | .arr items => some ("[" ++ String.intercalate "," (jsonStringifyItems items) ++ "]")
  | .obj members =>
    some ("\x7b" ++ String.intercalate "," (jsonStringifyMembers members) ++ "\x7d")
/-- Array elements: undefined is serialized as null. -/
def jsonStringifyItems : JsList → List String
  | .nil => []
  | .cons v rest => (jsonStringify v).getD "null" :: jsonStringifyItems rest
/-- Object members: a member whose value is undefined is left out. -/
def jsonStringifyMembers : JsMembers → List String
  | .nil => []
  | .cons key v rest =>
    match jsonStringify v with
    | none => jsonStringifyMembers rest
    | some s => (quoteJsonString key ++ ":" ++ s) :: jsonStringifyMembers rest
end

/-- A property that is a string or absent, read as a JavaScript value. -/
def optStr : Option String → JsValue
  | none => .undefined
  | some s => .str s

/-- A key made of decimal digits only. An engine enumerates integer-like keys
before the other keys, whatever the insertion order. -/
def isDigitsKey (key : String) : Bool :=
  key.data != [] && key.data.all Char.isDigit

mutual
/-- The values on which jsonStringify is the text of the builtin: numbers are
safe integers (at most 2^53 - 1 in absolute value, printed in plain decimal),
and the keys of an object are distinct and not integer-like, so that the
members are serialized in insertion order. -/
def JsValue.inFragment : JsValue → Bool
  | .undefined => true
  | .null => true
  | .bool _ => true
  | .num n => decide (n.natAbs ≤ 9007199254740991)
  | .str _ => true
  | .arr items => JsList.inFragment items
  | .obj members => JsMembers.inFragment members []
/-- Every element of the array is in the fragment. -/
def JsList.inFragment : JsList → Bool
  | .nil => true
  | .cons v rest => JsValue.inFragment v && JsList.inFragment rest
/-- Every member is in the fragment, with a key that is not integer-like and
not among the keys seen before it. -/
def JsMembers.inFragment : JsMembers → List String → Bool
  | .nil, _ => true
  | .cons key v rest, seen =>
    !isDigitsKey key && !seen.contains key && JsValue.inFragment v
      && JsMembers.inFragment rest (key :: seen)
end

/-- Any JavaScript value, as far as the data path observes it: the only thing
the module does with such a value is to pass it to the builtin JSON.stringify,
so the value is given by json, the text the builtin returns for it (none when
the builtin returns undefined, as for undefined itself or a function). This
covers the values outside the fragment of JsValue as well: numbers that are
not safe integers, objects with integer-like keys, objects with a toJSON
method. -/
structure OtherValue where
  json : Option String

/-- A value of the fragment as a value of the data path: the text of the
builtin is the one computed by jsonStringify. -/
def OtherValue.ofJsValue (v : JsValue) (_h : v.inFragment = true) : OtherValue :=
  { json := jsonStringify v }

/-! ## Errors -/

/-- The properties of an error value that the module reads. A property that
is absent (undefined) is none. -/
structure JsError where
  name : Option String
  message : Option String
  stack : Option String
  isThrow : JsValue

/-- What #respondWithError reads of an argument that is any object whose stack
is a string or absent: the values of its name and message, whatever they are
(each given, like a value of the data path, by the text JSON.stringify returns
for it), and its stack. -/
structure RaisedObject where
  name : OtherValue
  message : OtherValue
  stack : Option String

/-- An error value as such an object: a string property is serialized as a
quoted string and an absent one is undefined. -/
def RaisedObject.ofError (e : JsError) : RaisedObject :=
  { name := { json := jsonStringify (optStr e.name) }
    message := { json := jsonStringify (optStr e.message) }
    stack := e.stack }

/-- A value raised by a throw statement: null or undefined; an error value,
whose name, message and stack are each a string or absent (an Error, or a
primitive, on which all three are absent); any other value whose stack is a
string or absent; or a value whose stack is present but is not a string and has
no replace method (a number, say), whatever its other properties. -/
inductive Thrown where
  | nullish
  | value (e : JsError)
  | object (o : RaisedObject)
  | unusableStack

/-- The raised values on which the expression (error.stack ?? '').replace(...)
of #respondWithError itself raises: null and undefined (reading a property of
them fails) and values whose stack has no replace method. -/
def Thrown.breaksBuilder : Thrown → Bool
  | .nullish => true
  | .value _ => false
  | .object _ => false
  | .unusableStack => true

/-- The expression new Error(message). The stack starts with the generic header
line of the engine, followed by the call-site frames, which are a parameter. -/
def newError (frames : String) (message : String) : JsError :=
  { name := some "Error"
    message := some message
    stack := some ((if message = "" then "Error" else "Error: " ++ message) ++ frames)
    isThrow := .undefined }

/-- The TypeError raised by reading a property of null or undefined. -/
def typeErrorOnNullish (frames : String) : Thrown :=
  .value { name := some "TypeError"
           message := some "Cannot read properties of null"
           stack := some ("TypeError: Cannot read properties of null" ++ frames)
           isThrow := .undefined }

/-- The TypeError raised by calling replace on a stack that has no such method. -/
def typeErrorOnStack (frames : String) : Thrown :=
  .value { name := some "TypeError"
           message := some "replace is not a function"
           stack := some ("TypeError: replace is not a function" ++ frames)
           isThrow := .undefined }

/-- The call stack.replace(/^Error: /u, ''): drops one leading "Error: ". -/
def replaceLeadingError (stack : String) : String :=
  if "Error: ".data.isPrefixOf stack.data then ⟨stack.data.drop 7⟩ else stack

/-! ## Request, response and assets -/

/-- The parts of the incoming request that the module reads. -/
structure HttpRequest where
  method : String
  host : String
  searchParams : List (String × String)
  headers : List (String × String)

/-- One write performed on the response object. -/
inductive Write where
  | statusCode (code : Nat)
  | setHeader (name value : String)
  | writeEarlyHints (link : List String)
  | end_ (body : Option String)
  deriving DecidableEq

/-- Modelled from the spec: the class HttpResponse (lib/server/HttpResponse.js)
is not among the sources. The response has a mutable statusCode with default
200, setHeader(name, value), a terminal end(body) after which it is ended, an
ended-state query and, on an HTTP/2 transport, writeEarlyHints(links). The
field writes records every write in order; isHttp2 stands for the test
response.original instanceof Http2ServerResponse, and writes on
response.original are writes on this record. -/
structure HttpResponse where
  statusCode : Nat
  headers : List (String × String)
  ended : Bool
  body : Option String
  isHttp2 : Bool
  writes : List Write
  deriving DecidableEq

/-- A response on which nothing has been written yet. -/
def HttpResponse.fresh (isHttp2 : Bool) : HttpResponse :=
  { statusCode := 200, headers := [], ended := false, body := none,
    isHttp2 := isHttp2, writes := [] }

/-- The assignment response.statusCode = code. -/
def HttpResponse.setStatusCode (r : HttpResponse) (code : Nat) : HttpResponse :=
  { r with statusCode := code, writes := r.writes ++ [.statusCode code] }

/-- The call response.setHeader(name, value): replaces the header of that name. -/
def HttpResponse.setHeader (r : HttpResponse) (name value : String) : HttpResponse :=
  { r with
    headers := r.headers.filter (fun h => h.1 != name) ++ [(name, value)]
    writes := r.writes ++ [.setHeader name value] }

/-- The call response.end(body): the response becomes ended; the body of a
response that was already ended is kept. -/
def HttpResponse.end_ (r : HttpResponse) (body : Option String) : HttpResponse :=
  { r with
    ended := true
    body := if r.ended then r.body else body
    writes := r.writes ++ [.end_ body] }

/-- The call response.writeEarlyHints({ link }). -/
def HttpResponse.writeEarlyHints (r : HttpResponse) (link : List String) : HttpResponse :=
  { r with writes := r.writes ++ [.writeEarlyHints link] }

/-- The value of the header of the given name, if set. -/
def HttpResponse.getHeader (r : HttpResponse) (name : String) : Option String :=
  (r.headers.find? (fun h => h.1 == name)).map (fun h => h.2)

/-- Modelled from the spec: isResponseEnded (lib/functions/httpRequestResponse.js)
is not among the sources; it is the ended-state query of the response. -/
def isResponseEnded (r : HttpResponse) : Bool := r.ended

/-- Modelled from the spec: ServerResponseFormatter (lib/server) is not among
the sources. Its setHeaders(response, kind) sets content-type and
cache-control for the kind; the two values come from the configured mime types
and max age and are parameters here. -/
structure ServerResponseFormatter where
  contentType : String → String
  cacheControl : String → String

/-- The call serverResponseFormatter.setHeaders(response, kind). -/
def ServerResponseFormatter.setHeaders (f : ServerResponseFormatter)
    (r : HttpResponse) (kind : String) : HttpResponse :=
  (r.setHeader "content-type" (f.contentType kind)).setHeader "cache-control"
    (f.cacheControl kind)

/-- A style or script declaration of a rendered component. -/
structure ComponentAsset where
  tag : String
  url : Option String

/-- A JavaScript Map from key to asset, as the list of its entries in
insertion order (the order in which forEach visits them). -/
abbrev AssetMap := List (String × ComponentAsset)

/-- The two asset collections of a request. -/
structure ComponentsAssets where
  scripts : AssetMap
  styles : AssetMap

/-- The parsed parameters of a request. -/
structure QueryParams where
  query : JsValue
  queryGet : List (String × String)

/-- The per-request context handed to the collaborators. The response of the
exchange and the asset collections are mutable and live in the World. -/
structure ChunkParams where
  request : HttpRequest
  isXHR : Bool
  isHTML : Bool
  queryParams : QueryParams

/-- The mutable state of one request: the response, the asset collections of
the chunk parameters and what was written with console.error. -/
structure World where
  response : HttpResponse
  componentsAssets : ComponentsAssets
  console : List Thrown

/-- What the rendering collaborator does: it returns markup or null, or raises. -/
inductive RenderResult where
  | html (markup : Option String)
  | fault (error : Thrown)

/-- What the processing collaborator returns, by the runtime tests of the data
path: an instance of Error, an instance of String (boxed), a primitive string,
or any other value (one that is none of the first three). -/
inductive ProcessValue where
  | error (e : JsError)
  | boxedString (s : String)
  | string (s : String)
  | other (v : OtherValue)

/-- How a call completes: normally, or with a raised value that escapes. -/
inductive Completion where
  | normal
  | throw (e : Thrown)

/-- The configuration values the module reads. ajaxVersion is the value of
appConfig.ajax.version.toString(); development is Boolean(appConfig.development);
earlyHints is the truthiness of appConfig.server.earlyHints. -/
structure Config where
  development : Bool
  ajaxVersion : String
  wrongVersionMessage : String
  earlyHints : Bool

/-- An instance of AppComponents: its configuration and its collaborators,
none of which is among the sources. An awaited collaborator maps the state at
the call to its result and the state when control resumes. -/
structure App where
  appConfig : Config
  serverResponseFormatter : ServerResponseFormatter
  isRequestXHR : HttpRequest → Bool
  isRequestHtml : HttpRequest → Bool
  getHeaderAsString : HttpRequest → String → Option String
  getPostRequestParameters : HttpRequest → HttpResponse → JsValue × HttpResponse
  makeLayoutHtml : List String → ChunkParams → World → RenderResult × World
  process : List String → List String → ChunkParams → World → ProcessValue × World
  getGlobalFilesVersion : World → String × World
  getScriptFromRepository : String → World → String × World
  wordsLocale : HttpRequest → Option String
  stackFrames : String

/-! ## The error envelope builder -/

/-- The object literal that #respondWithError serializes. -/
def errorEnvelope (code : Nat) (error : JsError) (stack : String) : JsValue :=
  .obj (.cons "code" (.num code)
    (.cons "name" (optStr error.name)
      (.cons "message" (optStr error.message)
        (.cons "stack" (.str stack) .nil))))

/-- The constant stack of #respondWithError: the stack of the error without
its leading generic header in development, the empty string otherwise. -/
def envelopeStack (error : JsError) (development : Bool) : String :=
  if development then replaceLeadingError (error.stack.getD "") else ""

/-- The method #respondWithError(response, error, isThrow, development). -/
def respondWithError (fmt : ServerResponseFormatter) (response : HttpResponse)
    (error : JsError) (isThrow : Bool) (development : Bool) : HttpResponse :=
  let code := if isThrow then 400 else 200
  let stack := envelopeStack error development
  let response := if response.statusCode = 200 then response.setStatusCode code else response
  let response := fmt.setHeaders response "json"
  let response :=
    if response.statusCode = 200 then response.setHeader "x-response-type" "error"
    else response
  response.end_ (jsonStringify (errorEnvelope response.statusCode error stack))

/-- One member of a serialized object: nothing when the value is serialized as
undefined. -/
def envelopeMember (key : String) (json : Option String) : List String :=
  match json with
  | none => []
  | some text => [quoteJsonString key ++ ":" ++ text]

/-- JSON.stringify of the object literal of #respondWithError when name and
message are given by their JSON text. -/
def envelopeJson (code : Nat) (name message : OtherValue) (stack : String) :
    Option String :=
  some ("\x7b" ++ String.intercalate ","
      (envelopeMember "code" (jsonStringify (.num code))
        ++ (envelopeMember "name" name.json
          ++ (envelopeMember "message" message.json
            ++ envelopeMember "stack" (jsonStringify (.str stack)))))
    ++ "\x7d")

/-- The method #respondWithError(response, error, isThrow, development) on an
argument that is any object whose stack is a string or absent. On an error
value it is respondWithError. -/
def respondWithErrorOnObject (fmt : ServerResponseFormatter) (response : HttpResponse)
    (error : RaisedObject) (isThrow : Bool) (development : Bool) : HttpResponse :=
  let code := if isThrow then 400 else 200
  let stack := if development then replaceLeadingError (error.stack.getD "") else ""
  let response := if response.statusCode = 200 then response.setStatusCode code else response
  let response := fmt.setHeaders response "json"
  let response :=
    if response.statusCode = 200 then response.setHeader "x-response-type" "error"
    else response
  response.end_ (envelopeJson response.statusCode error.name error.message stack)

/-! ## Early hints and asset stringification -/

/-- The statement if (!links.includes(code)) links.push(code). -/
def pushIfMissing (links : List String) (code : String) : List String :=
  if links.contains code then links else links ++ [code]

/-- The Link value of a style asset. -/
def styleLink (ver url : String) : String :=
  "</" ++ ver ++ "/" ++ url ++ ">; rel=\"preload\"; as=\"style\""

/-- The Link value of a script asset. -/
def scriptLink (ver url : String) : String :=
  "</" ++ ver ++ "/" ++ url ++ ">; rel=\"modulepreload\"; as=\"script\""

/-- One step of a forEach of #sendEarlyHints: an asset with a truthy url
contributes its Link value unless the list already includes it. -/
def addLink (mk : String → String) (links : List String) (asset : ComponentAsset) :
    List String :=
  match asset.url with
  | none => links
  | some url => if url != "" then pushIfMissing links (mk url) else links

/-- The array links built by #sendEarlyHints. -/
def earlyHintLinks (ver : String) (componentsAssets : ComponentsAssets) : List String :=
  let links : List String := []
  let links := componentsAssets.styles.foldl
    (fun links entry => addLink (styleLink ver) links entry.2) links
  let links := componentsAssets.scripts.foldl
    (fun links entry => addLink (scriptLink ver) links entry.2) links
  links

/-- The method #sendEarlyHints(response, ver, componentsAssets). -/
def sendEarlyHints (response : HttpResponse) (ver : String)
    (componentsAssets : ComponentsAssets) : HttpResponse :=
  let links := earlyHintLinks ver componentsAssets
  (response.writeEarlyHints links).setHeader "link" (String.intercalate ", " links)

/-- The call set.add(value) on a JavaScript Set, kept as the list of its
members in insertion order. -/
def setAdd (set : List String) (value : String) : List String :=
  if set.contains value then set else set ++ [value]

/-- The members of the Set filled by the stringifier of
#stringifyComponentsAssets, in insertion order. -/
def tagSet (assets : AssetMap) : List String :=
  assets.foldl (fun set entry => setAdd set entry.2.tag) []

/-- The local function stringifier of #stringifyComponentsAssets. -/
def stringifier (assets : AssetMap) : String :=
  (tagSet assets).foldl (fun str asset => str ++ asset) ""

/-- The method #stringifyComponentsAssets: the pair (styles, scripts). -/
def stringifyComponentsAssets (componentsAssets : ComponentsAssets) : String × String :=
  (stringifier componentsAssets.styles, stringifier componentsAssets.scripts)

/-! ## Head tags -/

/-- A property value of the head-tags object: a string, an array whose items
are attribute objects (none for an item that is not an object), or any other
value. -/
inductive TagContents where
  | text (s : String)
  | list (items : List (Option (List (String × Option String))))
  | other

/-- White space and line terminators, as String.prototype.trim removes them. -/
def isJsWhitespace (c : Char) : Bool :=
  let n := c.toNat
  n == 9 || n == 10 || n == 11 || n == 12 || n == 13 || n == 32 || n == 160
    || n == 5760 || (8192 ≤ n && n ≤ 8202) || n == 8232 || n == 8233 || n == 8239
    || n == 8287 || n == 12288 || n == 65279

/-- The call str.trim(). -/
def jsTrim (s : String) : String :=
  ⟨((s.data.dropWhile isJsWhitespace).reverse.dropWhile isJsWhitespace).reverse⟩

/-- The call value.replace(/"/ug, ''). -/
def removeDoubleQuotes (s : String) : String :=
  ⟨s.data.filter (fun c => c.toNat != 34)⟩

/-- The inner for-in loop of objectToHtmlTags over one attribute object. -/
def attributesToText (attributes : List (String × Option String)) : String :=
  attributes.foldl
    (fun currentAttribute a =>
      currentAttribute ++ (a.1 ++ "=\"" ++ removeDoubleQuotes (a.2.getD "") ++ "\" "))
    ""

/-- The function objectToHtmlTags(object, indentSpace), for an object given as
the list of its enumerable properties. -/
def objectToHtmlTags (object : List (String × TagContents)) (indentSpace : String) :
    String :=
  object.foldl
    (fun html p =>
      match p.2 with
      | .text tagContents =>
        html ++ (indentSpace ++ "<" ++ p.1 ++ ">" ++ tagContents ++ "</" ++ p.1 ++ ">\n")
      | .list tagContents =>
        html ++ tagContents.foldl
          (fun attributesHtml attributes =>
            match attributes with
            | none => attributesHtml
            | some attrs =>
              attributesHtml
                ++ (indentSpace ++ "<" ++ p.1 ++ " " ++ jsTrim (attributesToText attrs) ++ ">\n"))
          ""
      | .other => html)
    ""

/-! ## The full-page path -/

/-- The document assembled by #processRequestAsHtmlPage around the rendered
markup. -/
def assembleDocument (locale : Option String) (baseHref : String)
    (htmlHeadTags : List (String × TagContents)) (styles : String)
    (browserSupportCheck routesFetcher : String) (html : String) (scripts : String) :
    String :=
  "<!DOCTYPE html>\n<html lang=\"" ++ locale.getD "en" ++ "\">\n"
    ++ "<head>\n"
    ++ ("  <base href=\"" ++ baseHref ++ "\">\n")
    ++ "  <meta charset=\"utf-8\">\n"
    ++ objectToHtmlTags htmlHeadTags "  "
    ++ (styles ++ "\n")
    ++ ("  <script>\n" ++ browserSupportCheck ++ "\n  </script>\n")
    ++ ("  <script>\n" ++ routesFetcher ++ "\n  </script>\n")
    ++ "</head>\n<body>"
    ++ (html ++ "\n")
    ++ (scripts ++ "\n")
    ++ "</body>\n</html>"

/-- The catch block of #processRequestAsHtmlPage. In development the raised
value itself is handed to #respondWithError, which first evaluates
(error.stack ?? '').replace(...): for null or undefined the read of stack
raises a TypeError, and for a stack without a replace method the call does,
in both cases before any further write. -/
def respondToRenderFault (app : App) (error : Thrown) (w : World) : Completion × World :=
  let development := app.appConfig.development
  let w := { w with console := w.console ++ [error] }
  let w := { w with response := w.response.setStatusCode 500 }
  if development then
    match error with
    | .nullish => (.throw (typeErrorOnNullish app.stackFrames), w)
    | .unusableStack => (.throw (typeErrorOnStack app.stackFrames), w)
    | .value e =>
      (.normal, { w with
        response := respondWithError app.serverResponseFormatter w.response e true development })
    | .object o =>
      (.normal, { w with
        response :=
          respondWithErrorOnObject app.serverResponseFormatter w.response o true development })
  else
    (.normal, { w with
      response := respondWithError app.serverResponseFormatter w.response
        (newError app.stackFrames "Internal Server Error") true development })

/-- The last two statements of #processRequestAsHtmlPage: the headers for
kind html, then end(html). -/
def finishHtml (app : App) (html : String) (w : World) : World :=
  { w with
    response :=
      (app.serverResponseFormatter.setHeaders w.response "html").end_ (some html) }

/-- The method #processRequestAsHtmlPage(chunkParams, explodedPathname). -/
def processRequestAsHtmlPage (app : App) (chunkParams : ChunkParams)
    (explodedPathname : List String) (w : World) : Completion × World :=
  let rendered := app.makeLayoutHtml explodedPathname chunkParams w
  let w := rendered.2
  match rendered.1 with
  | .fault error => respondToRenderFault app error w
  | .html none =>
    let w := { w with response := w.response.setStatusCode 404 }
    (.normal, finishHtml app "Page Not Found" w)
  | .html (some html) =>
    let version := app.getGlobalFilesVersion w
    let globalFilesVersion := version.1
    let w := version.2
    let locale := app.wordsLocale chunkParams.request
    if isResponseEnded w.response then (.normal, w)
    else
      let assets := stringifyComponentsAssets w.componentsAssets
      let styles := assets.1
      let scripts := assets.2
      let baseHref := "//" ++ chunkParams.request.host ++ "/" ++ globalFilesVersion ++ "/"
      let s1 := app.getScriptFromRepository "browserSupportCheck.js" w
      let s2 := app.getScriptFromRepository "routesFetcher.js" s1.2
      let w := s2.2
      let html := assembleDocument locale baseHref [] styles s1.1 s2.1 html scripts
      let w :=
        if app.appConfig.earlyHints && w.response.isHttp2 then
          { w with
            response := sendEarlyHints w.response globalFilesVersion w.componentsAssets }
        else w
      (.normal, finishHtml app html w)

/-! ## The data path -/

/-- The test at the head of #processRequestAsXhr: the version header, read
with the empty string as default, is truthy and differs from the configured
version. -/
def ajaxVersionMismatch (app : App) (request : HttpRequest) : Bool :=
  let ajaxVersion := app.appConfig.ajaxVersion
  let ajaxVersionInHeader := (app.getHeaderAsString request "x-ajax-version").getD ""
  ajaxVersionInHeader != "" && ajaxVersionInHeader != ajaxVersion

/-- The dispatch on the result shape in #processRequestAsXhr (the chain of
tests on value after the ended check). -/
def respondWithValue (app : App) (value : ProcessValue) (w : World) : World :=
  let fmt := app.serverResponseFormatter
  let development := app.appConfig.development
  match value with
  | .error e =>
    { w with response := respondWithError fmt w.response e e.isThrow.truthy development }
  | .boxedString s =>
    let response := (fmt.setHeaders w.response "txt").setHeader "x-response-type" "string"
    { w with response := response.end_ (some s) }
  | .string s =>
    let response := (fmt.setHeaders w.response "txt").setHeader "x-response-type" "string"
    { w with response := response.end_ (some s) }
  | .other v =>
    let response := (fmt.setHeaders w.response "json").setHeader "x-response-type" "json"
    { w with response := response.end_ v.json }

/-- The method #processRequestAsXhr(chunkParams, explodedPathname). -/
def processRequestAsXhr (app : App) (chunkParams : ChunkParams)
    (explodedPathname : List String) (w : World) : World :=
  let fmt := app.serverResponseFormatter
  let development := app.appConfig.development
  if ajaxVersionMismatch app chunkParams.request then
    let error := newError app.stackFrames app.appConfig.wrongVersionMessage
    { w with response := respondWithError fmt w.response error true development }
  else
    let processed := app.process explodedPathname explodedPathname chunkParams w
    let value := processed.1
    let w := processed.2
    if isResponseEnded w.response then w
    else respondWithValue app value w

/-! ## The dispatcher -/

/-- The request classifier at the head of parseRequest: the pair
(isXHR, isHTML) after the tie rule. -/
def classifyRequest (isXHR isHTML : Bool) : Bool × Bool :=
  if (isXHR && isHTML) || (!isXHR && !isHTML) then (true, false) else (isXHR, isHTML)

/-- Object.fromEntries on string pairs: a later entry replaces the value of an
earlier one with the same key. -/
def objectFromEntries (entries : List (String × String)) : List (String × String) :=
  entries.foldl
    (fun object e =>
      if object.any (fun p => p.1 == e.1) then
        object.map (fun p => if p.1 == e.1 then (p.1, e.2) else p)
      else object ++ [e])
    []

/-- The chunkParams built by parseRequest (without its mutable parts). -/
def makeChunkParams (app : App) (request : HttpRequest) (query : JsValue) : ChunkParams :=
  let flags := classifyRequest (app.isRequestXHR request) (app.isRequestHtml request)
  { request := request
    isXHR := flags.1
    isHTML := flags.2
    queryParams := { query := query, queryGet := objectFromEntries request.searchParams } }

/-- The method parseRequest(exchange, explodedPathname), for the exchange
given by its request and its response. -/
def parseRequest (app : App) (request : HttpRequest) (response : HttpResponse)
    (explodedPathname : List String) : Completion × World :=
  let params := app.getPostRequestParameters request response
  let chunkParams := makeChunkParams app request params.1
  let w : World :=
    { response := params.2
      componentsAssets := { scripts := [], styles := [] }
      console := [] }
  if request.method == "GET" && !chunkParams.isXHR && chunkParams.isHTML then
    processRequestAsHtmlPage app chunkParams explodedPathname w
  else
    (.normal, processRequestAsXhr app chunkParams explodedPathname w)

/-! ## Specification-level notions -/

/-- The distinct members of a list in order of first occurrence: the head
stays, and its later copies are removed from the rest. -/
def distinctInOrder : List String → List String
  | [] => []
  | x :: xs => x :: (distinctInOrder xs).filter (fun y => y != x)

/-- The tag values of a collection, in insertion order of its entries. -/
def tagsOf (assets : AssetMap) : List String :=
  assets.map (fun entry => entry.2.tag)

/-- The url of an asset when it has one that is truthy (present and not the
empty string). -/
def truthyUrl (asset : ComponentAsset) : Option String :=
  match asset.url with
  | none => none
  | some url => if url != "" then some url else none

/-- The urls of the assets of a collection that have one, in insertion order. -/
def linkUrls (assets : AssetMap) : List String :=
  assets.filterMap (fun entry => truthyUrl entry.2)

/-- The test of the dispatcher on the raw request signals: the method is GET,
the request accepts HTML and it is not an XHR call. -/
def selectsFullPage (app : App) (request : HttpRequest) : Bool :=
  request.method == "GET" && app.isRequestHtml request && !app.isRequestXHR request

/-- The state handed to the selected path by parseRequest: the response as it
is when control resumes after the parameter extraction, and empty asset
collections. -/
def dispatchWorld (app : App) (request : HttpRequest) (response : HttpResponse) : World :=
  { response := (app.getPostRequestParameters request response).2
    componentsAssets := { scripts := [], styles := [] }
    console := [] }

/-- The chunk parameters handed to the selected path by parseRequest. -/
def dispatchChunkParams (app : App) (request : HttpRequest) (response : HttpResponse) :
    ChunkParams :=
  makeChunkParams app request (app.getPostRequestParameters request response).1

/-- The envelope text sent for the given code, name, message and stack. -/
def envelopeText (code : Nat) (name message : Option String) (stack : String) :
    Option String :=
  jsonStringify (.obj (.cons "code" (.num code)
    (.cons "name" (optStr name)
      (.cons "message" (optStr message)
        (.cons "stack" (.str stack) .nil)))))

/-- The number of status-code assignments in a list of writes. -/
def statusAssignments (writes : List Write) : Nat :=
  writes.countP (fun x => match x with
    | .statusCode _ => true
    | _ => false)

/-- The number of calls of end in a list of writes. -/
def endCalls (writes : List Write) : Nat :=
  writes.countP (fun x => match x with
    | .end_ _ => true
    | _ => false)

/-- The state at the moment control last returns from a collaborator to the
core on the full-page path: after the rendering call when it raises or returns
null, after the asset-version lookup when the response is found ended there,
and after the second bootstrap-script retrieval otherwise. -/
def lastResumeHtml (app : App) (chunkParams : ChunkParams)
    (explodedPathname : List String) (w : World) : World :=
  let rendered := app.makeLayoutHtml explodedPathname chunkParams w
  match rendered.1 with
  | .fault _ => rendered.2
  | .html none => rendered.2
  | .html (some _) =>
    let version := app.getGlobalFilesVersion rendered.2
    if isResponseEnded version.2.response then version.2
    else
      (app.getScriptFromRepository "routesFetcher.js"
        (app.getScriptFromRepository "browserSupportCheck.js" version.2).2).2

/-- The state at the moment control last returns from a collaborator to the
core on the data path: the state at entry when the version check fails (no
collaborator is called), and the state after the processing call otherwise. -/
def lastResumeXhr (app : App) (chunkParams : ChunkParams)
    (explodedPathname : List String) (w : World) : World :=
  if ajaxVersionMismatch app chunkParams.request then w
  else (app.process explodedPathname explodedPathname chunkParams w).2

/-- The state at the moment control last returns from a collaborator to the
core during parseRequest. -/
def lastResume (app : App) (request : HttpRequest) (response : HttpResponse)
    (explodedPathname : List String) : World :=
  if selectsFullPage app request then
    lastResumeHtml app (dispatchChunkParams app request response) explodedPathname
      (dispatchWorld app request response)
  else
    lastResumeXhr app (dispatchChunkParams app request response) explodedPathname
      (dispatchWorld app request response)

/-- The writes of the core after control last returned to it: what parseRequest
adds to the writes found on the response at that moment. -/
def coreWrites (app : App) (request : HttpRequest) (response : HttpResponse)
    (explodedPathname : List String) : List Write :=
  (parseRequest app request response explodedPathname).2.response.writes.drop
    (lastResume app request response explodedPathname).response.writes.length

/-! ## Sample data -/

/-- A formatter with fixed values. -/
def sampleFormatter : ServerResponseFormatter :=
  { contentType := fun kind =>
      if kind == "html" then "text/html"
      else if kind == "txt" then "text/plain" else "application/json"
    cacheControl := fun _ => "no-cache" }

/-- A request with the given method and version header. -/
def sampleRequest (method : String) (version : Option String) : HttpRequest :=
  { method := method
    host := "example.com"
    searchParams := []
    headers := match version with
      | none => []
      | some v => [("x-ajax-version", v)] }

/-- An application whose rendering collaborator behaves as render and whose
processing collaborator behaves as process; the other collaborators leave the
state unchanged. The configured version is 1. -/
def sampleApp (development : Bool)
    (render : World → RenderResult × World)
    (process : World → ProcessValue × World) : App :=
  { appConfig :=
      { development := development
        ajaxVersion := "1"
        wrongVersionMessage := "Wrong version"
        earlyHints := true }
    serverResponseFormatter := sampleFormatter
    isRequestXHR := fun request => request.method != "GET"
    isRequestHtml := fun request => request.method == "GET"
    getHeaderAsString := fun request name =>
      (request.headers.find? (fun h => h.1 == name)).map (fun h => h.2)
    getPostRequestParameters := fun _ response => (.undefined, response)
    makeLayoutHtml := fun _ _ w => render w
    process := fun _ _ _ w => process w
    getGlobalFilesVersion := fun w => ("v1", w)
    getScriptFromRepository := fun name w => ("/* " ++ name ++ " */", w)
    wordsLocale := fun _ => none
    stackFrames := "\n    at sample" }

/-- The chunk parameters parseRequest builds for a sample request. -/
def sampleChunkParams (method : String) (version : Option String) : ChunkParams :=
  { request := sampleRequest method version
    isXHR := (classifyRequest (method != "GET") (method == "GET")).1
    isHTML := (classifyRequest (method != "GET") (method == "GET")).2
    queryParams := { query := .undefined, queryGet := [] } }

/-- The state of a request on which nothing has been written. -/
def sampleWorld : World :=
  { response := HttpResponse.fresh true
    componentsAssets := { scripts := [], styles := [] }
    console := [] }

/-- An error value without an isThrow property and without a stack. -/
def sampleError : JsError :=
  { name := some "ValidationError"
    message := some "bad input"
    stack := none
    isThrow := .undefined }

/-- The value null on the data path. -/
def nullValue : OtherValue := OtherValue.ofJsValue .null rfl

/-- A number below one thousand on the data path. -/
def smallNumber (n : Fin 1000) : OtherValue :=
  OtherValue.ofJsValue (.num n.val) (by
    simp only [JsValue.inFragment, Int.natAbs_ofNat, decide_eq_true_eq]
    omega)

/-- The number 10^21 on the data path: it is not a safe integer, and the
builtin returns the text 1e+21 for it. -/
def largeNumber : OtherValue := { json := some "1e+21" }

/-- The object with the members b: 1 and "1": 2, inserted in this order, on
the data path: the builtin serializes the integer-like key first. -/
def objectB1 : OtherValue := { json := some "\x7b\"1\":2,\"b\":1\x7d" }

/-- The object with the single member a: 1 on the data path. -/
def objectA1 : OtherValue :=
  OtherValue.ofJsValue (.obj (.cons "a" (.num 1) .nil)) (by decide)

/-- A sample application in production mode whose rendering returns null and
whose processing returns the number n. -/
def numberApp (n : Fin 1000) : App :=
  sampleApp false (fun w => (.html none, w)) (fun w => (.other (smallNumber n), w))

/-- A sample state whose response was set to status 404 before the request
reaches the core. -/
def sampleWorldAt404 : World :=
  { sampleWorld with response := (HttpResponse.fresh true).setStatusCode 404 }

/-- A fault whose stack starts with the generic header. -/
def sampleFault : JsError :=
  { name := some "RangeError"
    message := some "boom"
    stack := some "Error: boom at render"
    isThrow := .undefined }

/-- A raised object whose name is the number 42. -/
def numberedFault : RaisedObject :=
  { name := { json := some "42" }
    message := { json := some "\"m\"" }
    stack := some "Error: x" }

/-- A sample application whose rendering raises the given value. -/
def faultApp (development : Bool) (error : Thrown) : App :=
  sampleApp development (fun w => (.fault error, w)) (fun w => (.other nullValue, w))

/-- A sample application whose rendering returns the given markup and leaves
the state unchanged. -/
def pageApp (markup : Option String) : App :=
  sampleApp false (fun w => (.html markup, w)) (fun w => (.other nullValue, w))

/-- A sample application whose rendering ends the response with a redirect
and then returns null. -/
def redirectApp : App :=
  sampleApp false
    (fun w => (.html none, { w with response := (w.response.setStatusCode 302).end_ none }))
    (fun w => (.other nullValue, w))

/-- An asset collection with one style that has no url. -/
def assetsWithoutUrl : ComponentsAssets :=
  { scripts := []
    styles := [("Header", { tag := "<style>h1</style>", url := none })] }

/-- Two style assets under different keys with the same url, and one script. -/
def assetsWithRepeatedUrl : ComponentsAssets :=
  { styles := [("Header", { tag := "<link href=a.css>", url := some "a.css" }),
               ("Footer", { tag := "<link href=a.css>", url := some "a.css" })]
    scripts := [("Header", { tag := "<script src=a.js>", url := some "a.js" })] }

/-- A sample application whose rendering registers the assets of
assetsWithRepeatedUrl and returns a paragraph. -/
def assetsPageApp : App :=
  sampleApp false
    (fun w => (.html (some "<p>Hi</p>"), { w with componentsAssets := assetsWithRepeatedUrl }))
    (fun w => (.other nullValue, w))

/-- A sample application in development mode whose rendering sets status 403
and then raises a fault. -/
def forbiddenFaultApp : App :=
  sampleApp true
    (fun w => (.fault (.value sampleFault),
      { w with response := w.response.setStatusCode 403 }))
    (fun w => (.other nullValue, w))

/-! ## Lemmas on first-occurrence deduplication -/

theorem distinctInOrder_filter (p : String → Bool) (l : List String) :
    distinctInOrder (l.filter p) = (distinctInOrder l).filter p := by
  induction l with
  | nil => rfl
  | cons y ys ih =>
    by_cases hp : p y = true
    · simp only [List.filter_cons_of_pos hp, distinctInOrder, ih, List.filter_filter]
      congr 1
      apply List.filter_congr
      intro a _
      exact Bool.and_comm _ _
    · simp only [List.filter_cons_of_neg hp, distinctInOrder, ih, List.filter_filter]
      apply List.filter_congr
      intro a _
      by_cases hay : a = y
      · subst hay
        simp [hp]
      · simp [hay]

theorem mem_distinctInOrder (l : List String) (a : String) :
    a ∈ distinctInOrder l ↔ a ∈ l := by
  induction l with
  | nil => simp [distinctInOrder]
  | cons x xs ih =>
    simp only [distinctInOrder, List.mem_cons, List.mem_filter, ih]
    by_cases h : a = x
    · simp [h]
    · simp [h]

theorem nodup_distinctInOrder (l : List String) : (distinctInOrder l).Nodup := by
  induction l with
  | nil => simp [distinctInOrder]
  | cons x xs ih =>
    simp only [distinctInOrder, List.nodup_cons, List.mem_filter]
    refine ⟨?_, ih.filter _⟩
    simp

theorem count_distinctInOrder (l : List String) (a : String) (h : a ∈ l) :
    (distinctInOrder l).count a = 1 :=
  List.count_eq_one_of_mem (nodup_distinctInOrder l) ((mem_distinctInOrder l a).2 h)

theorem pairwise_indexOf_distinctInOrder (l : List String) :
    (distinctInOrder l).Pairwise (fun a b => l.indexOf a < l.indexOf b) := by
  induction l with
  | nil => simp [distinctInOrder]
  | cons x xs ih =>
    simp only [distinctInOrder, List.pairwise_cons]
    constructor
    · intro b hb
      have hbx : b ≠ x := by simpa using (List.mem_filter.1 hb).2
      rw [List.indexOf_cons_self, List.indexOf_cons_ne _ (Ne.symm hbx)]
      exact Nat.succ_pos _
    · refine (ih.filter _).imp_of_mem ?_
      intro a b ha hb hab
      have hax : a ≠ x := by simpa using (List.mem_filter.1 ha).2
      have hbx : b ≠ x := by simpa using (List.mem_filter.1 hb).2
      rw [List.indexOf_cons_ne _ (Ne.symm hax), List.indexOf_cons_ne _ (Ne.symm hbx)]
      exact Nat.succ_lt_succ hab

theorem setAdd_eq (set : List String) (value : String) :
    setAdd set value = if value ∈ set then set else set ++ [value] := by
  simp [setAdd]

theorem foldl_setAdd (l acc : List String) :
    l.foldl setAdd acc
      = acc ++ distinctInOrder (l.filter (fun y => decide (y ∉ acc))) := by
  induction l generalizing acc with
  | nil => simp [distinctInOrder]
  | cons x xs ih =>
    rw [List.foldl_cons, ih, setAdd_eq]
    by_cases hx : x ∈ acc
    · have hf : List.filter (fun y => decide (y ∉ acc)) (x :: xs)
          = List.filter (fun y => decide (y ∉ acc)) xs := by
        apply List.filter_cons_of_neg
        simpa using hx
      rw [if_pos hx, hf]
    · have hf : List.filter (fun y => decide (y ∉ acc)) (x :: xs)
          = x :: List.filter (fun y => decide (y ∉ acc)) xs := by
        apply List.filter_cons_of_pos
        simpa using hx
      rw [if_neg hx, hf]
      simp only [distinctInOrder, List.append_assoc, List.singleton_append]
      congr 2
      rw [← distinctInOrder_filter, List.filter_filter]
      congr 1
      apply List.filter_congr
      intro a _
      by_cases hax : a = x
      · subst hax
        simp
      · simp [hax]

theorem tagSet_eq (assets : AssetMap) : tagSet assets = distinctInOrder (tagsOf assets) := by
  have h : ∀ (l : AssetMap) (acc : List String),
      l.foldl (fun set entry => setAdd set entry.2.tag) acc
        = (l.map (fun entry => entry.2.tag)).foldl setAdd acc := by
    intro l
    induction l with
    | nil => intro acc; rfl
    | cons e es ih => intro acc; simp [List.foldl_cons, ih]
  unfold tagSet tagsOf
  rw [h, foldl_setAdd]
  simp

/-! ## Frame lemmas for the response operations -/

@[simp] theorem statusCode_setStatusCode (r : HttpResponse) (code : Nat) :
    (r.setStatusCode code).statusCode = code := rfl

@[simp] theorem statusCode_setHeader (r : HttpResponse) (name value : String) :
    (r.setHeader name value).statusCode = r.statusCode := rfl

@[simp] theorem statusCode_end (r : HttpResponse) (body : Option String) :
    (r.end_ body).statusCode = r.statusCode := rfl

@[simp] theorem statusCode_setHeaders (f : ServerResponseFormatter) (r : HttpResponse)
    (kind : String) : (f.setHeaders r kind).statusCode = r.statusCode := rfl

@[simp] theorem ended_setStatusCode (r : HttpResponse) (code : Nat) :
    (r.setStatusCode code).ended = r.ended := rfl

@[simp] theorem ended_setHeader (r : HttpResponse) (name value : String) :
    (r.setHeader name value).ended = r.ended := rfl

@[simp] theorem ended_setHeaders (f : ServerResponseFormatter) (r : HttpResponse)
    (kind : String) : (f.setHeaders r kind).ended = r.ended := rfl

@[simp] theorem ended_end (r : HttpResponse) (body : Option String) :
    (r.end_ body).ended = true := rfl

@[simp] theorem body_end (r : HttpResponse) (body : Option String) :
    (r.end_ body).body = if r.ended then r.body else body := rfl

@[simp] theorem headers_end (r : HttpResponse) (body : Option String) :
    (r.end_ body).headers = r.headers := rfl

@[simp] theorem headers_setStatusCode (r : HttpResponse) (code : Nat) :
    (r.setStatusCode code).headers = r.headers := rfl

@[simp] theorem getHeader_end (r : HttpResponse) (body : Option String) (name : String) :
    (r.end_ body).getHeader name = r.getHeader name := rfl

@[simp] theorem getHeader_setStatusCode (r : HttpResponse) (code : Nat) (name : String) :
    (r.setStatusCode code).getHeader name = r.getHeader name := rfl

@[simp] theorem getHeader_setHeader_same (r : HttpResponse) (name value : String) :
    (r.setHeader name value).getHeader name = some value := by
  have hnone : List.find? (fun h : String × String => h.1 == name)
      (r.headers.filter (fun h => h.1 != name)) = none := by
    rw [List.find?_eq_none]
    intro h hh
    have := (List.mem_filter.1 hh).2
    simpa using this
  simp [HttpResponse.getHeader, HttpResponse.setHeader, List.find?_append, hnone]

theorem getHeader_setHeader_other (r : HttpResponse) (name other value : String)
    (h : other ≠ name) : (r.setHeader other value).getHeader name = r.getHeader name := by
  have hfilter : ∀ l : List (String × String),
      List.find? (fun h : String × String => h.1 == name)
        (l.filter (fun h => h.1 != other))
        = List.find? (fun h : String × String => h.1 == name) l := by
    intro l
    induction l with
    | nil => rfl
    | cons a l ih =>
      by_cases ha : a.1 = other
      · have hne : a.1 ≠ name := by rw [ha]; exact h
        simp [List.filter_cons, ha, List.find?_cons, ih]
        have : (other == name) = false := by simpa using h
        simp [this]
      · have hkeep : List.filter (fun h : String × String => h.1 != other) (a :: l)
            = a :: List.filter (fun h : String × String => h.1 != other) l := by
          apply List.filter_cons_of_pos
          simpa using ha
        rw [hkeep, List.find?_cons, List.find?_cons, ih]
  have hlast : List.find? (fun h : String × String => h.1 == name) [(other, value)] = none := by
    simp [List.find?_cons, h]
  simp only [HttpResponse.getHeader, HttpResponse.setHeader, List.find?_append, hfilter, hlast,
    Option.or_none]

@[simp] theorem writes_setStatusCode (r : HttpResponse) (code : Nat) :
    (r.setStatusCode code).writes = r.writes ++ [.statusCode code] := rfl

@[simp] theorem writes_setHeader (r : HttpResponse) (name value : String) :
    (r.setHeader name value).writes = r.writes ++ [.setHeader name value] := rfl

@[simp] theorem writes_end (r : HttpResponse) (body : Option String) :
    (r.end_ body).writes = r.writes ++ [.end_ body] := rfl

@[simp] theorem writes_writeEarlyHints (r : HttpResponse) (link : List String) :
    (r.writeEarlyHints link).writes = r.writes ++ [.writeEarlyHints link] := rfl

@[simp] theorem writes_setHeaders (f : ServerResponseFormatter) (r : HttpResponse)
    (kind : String) :
    (f.setHeaders r kind).writes
      = r.writes ++ [.setHeader "content-type" (f.contentType kind),
          .setHeader "cache-control" (f.cacheControl kind)] := by
  simp [ServerResponseFormatter.setHeaders]

theorem getHeader_setHeaders (f : ServerResponseFormatter) (r : HttpResponse)
    (kind name : String) (h1 : "content-type" ≠ name) (h2 : "cache-control" ≠ name) :
    (f.setHeaders r kind).getHeader name = r.getHeader name := by
  unfold ServerResponseFormatter.setHeaders
  rw [getHeader_setHeader_other _ _ _ _ h2, getHeader_setHeader_other _ _ _ _ h1]

/-- The status code after #respondWithError. -/
theorem respondWithError_statusCode (fmt : ServerResponseFormatter) (r : HttpResponse)
    (error : JsError) (isThrow development : Bool) :
    (respondWithError fmt r error isThrow development).statusCode
      = if r.statusCode = 200 then (if isThrow then 400 else 200) else r.statusCode := by
  unfold respondWithError
  by_cases h : r.statusCode = 200
  · cases isThrow <;> simp [h]
  · simp [h]

/-- The writes performed by #respondWithError, in order. -/
theorem respondWithError_writes (fmt : ServerResponseFormatter) (r : HttpResponse)
    (error : JsError) (isThrow development : Bool) :
    (respondWithError fmt r error isThrow development).writes
      = r.writes
        ++ (if r.statusCode = 200 then [Write.statusCode (if isThrow then 400 else 200)] else [])
        ++ [.setHeader "content-type" (fmt.contentType "json"),
            .setHeader "cache-control" (fmt.cacheControl "json")]
        ++ (if (respondWithError fmt r error isThrow development).statusCode = 200
            then [Write.setHeader "x-response-type" "error"] else [])
        ++ [.end_ (jsonStringify (errorEnvelope
              (respondWithError fmt r error isThrow development).statusCode error
              (envelopeStack error development)))] := by
  rw [respondWithError_statusCode]
  unfold respondWithError
  by_cases h : r.statusCode = 200
  · cases isThrow <;> simp [h]
  · simp [h]

theorem respondWithError_ended (fmt : ServerResponseFormatter) (r : HttpResponse)
    (error : JsError) (isThrow development : Bool) :
    (respondWithError fmt r error isThrow development).ended = true := rfl

theorem respondWithError_body (fmt : ServerResponseFormatter) (r : HttpResponse)
    (error : JsError) (isThrow development : Bool) (h : r.ended = false) :
    (respondWithError fmt r error isThrow development).body
      = jsonStringify (errorEnvelope
          (respondWithError fmt r error isThrow development).statusCode error
          (envelopeStack error development)) := by
  rw [respondWithError_statusCode]
  unfold respondWithError
  by_cases hs : r.statusCode = 200
  · cases isThrow <;> simp [hs, h]
  · simp [hs, h]

theorem respondWithError_responseType (fmt : ServerResponseFormatter) (r : HttpResponse)
    (error : JsError) (isThrow development : Bool) :
    (respondWithError fmt r error isThrow development).getHeader "x-response-type"
      = if (respondWithError fmt r error isThrow development).statusCode = 200
        then some "error" else r.getHeader "x-response-type" := by
  rw [respondWithError_statusCode]
  unfold respondWithError
  have hfmt : ∀ r0 : HttpResponse,
      (fmt.setHeaders r0 "json").getHeader "x-response-type" = r0.getHeader "x-response-type" :=
    fun r0 => getHeader_setHeaders fmt r0 "json" "x-response-type" (by decide) (by decide)
  by_cases hs : r.statusCode = 200
  · cases isThrow <;> simp [hs, hfmt]
  · simp [hs, hfmt]

theorem processRequestAsXhr_of_process (app : App) (chunkParams : ChunkParams)
    (explodedPathname : List String) (w w1 : World) (value : ProcessValue)
    (hv : ajaxVersionMismatch app chunkParams.request = false)
    (hp : app.process explodedPathname explodedPathname chunkParams w = (value, w1))
    (he : w1.response.ended = false) :
    processRequestAsXhr app chunkParams explodedPathname w = respondWithValue app value w1 := by
  unfold processRequestAsXhr
  simp only [hv, hp, isResponseEnded, he, Bool.false_eq_true, if_false]

theorem processRequestAsXhr_of_mismatch (app : App) (chunkParams : ChunkParams)
    (explodedPathname : List String) (w : World)
    (hv : ajaxVersionMismatch app chunkParams.request = true) :
    processRequestAsXhr app chunkParams explodedPathname w
      = { w with
          response := respondWithError app.serverResponseFormatter w.response
            (newError app.stackFrames app.appConfig.wrongVersionMessage) true
            app.appConfig.development } := by
  unfold processRequestAsXhr
  simp only [hv, if_true]

theorem ajaxVersionMismatch_of_header (app : App) (request : HttpRequest) (v : String)
    (hh : app.getHeaderAsString request "x-ajax-version" = some v)
    (hne : v ≠ "") (hdiff : v ≠ app.appConfig.ajaxVersion) :
    ajaxVersionMismatch app request = true := by
  simp [ajaxVersionMismatch, hh, hne, hdiff]

theorem respondWithError_after_500 (fmt : ServerResponseFormatter) (r : HttpResponse)
    (error : JsError) (isThrow development : Bool) :
    (respondWithError fmt (r.setStatusCode 500) error isThrow development).statusCode = 500
    ∧ (respondWithError fmt (r.setStatusCode 500) error isThrow development).writes
        = r.writes ++ [.statusCode 500,
            .setHeader "content-type" (fmt.contentType "json"),
            .setHeader "cache-control" (fmt.cacheControl "json"),
            .end_ (jsonStringify (errorEnvelope 500 error (envelopeStack error development)))]
    ∧ (r.ended = false →
        (respondWithError fmt (r.setStatusCode 500) error isThrow development).body
          = jsonStringify (errorEnvelope 500 error (envelopeStack error development))) := by
  have hst : (respondWithError fmt (r.setStatusCode 500) error isThrow development).statusCode
      = 500 := by
    simp [respondWithError_statusCode]
  refine ⟨hst, ?_, ?_⟩
  · rw [respondWithError_writes, hst]
    simp [List.append_assoc]
  · intro he
    rw [respondWithError_body _ _ _ _ _ (by simpa using he), hst]

theorem processRequestAsHtmlPage_of_fault (app : App) (chunkParams : ChunkParams)
    (explodedPathname : List String) (w w1 : World) (error : Thrown)
    (hr : app.makeLayoutHtml explodedPathname chunkParams w = (.fault error, w1)) :
    processRequestAsHtmlPage app chunkParams explodedPathname w
      = respondToRenderFault app error w1 := by
  unfold processRequestAsHtmlPage
  simp only [hr]

theorem processRequestAsHtmlPage_of_null (app : App) (chunkParams : ChunkParams)
    (explodedPathname : List String) (w w1 : World)
    (hr : app.makeLayoutHtml explodedPathname chunkParams w = (.html none, w1)) :
    processRequestAsHtmlPage app chunkParams explodedPathname w
      = (.normal, finishHtml app "Page Not Found"
          { w1 with response := w1.response.setStatusCode 404 }) := by
  unfold processRequestAsHtmlPage
  simp only [hr]

/-- In development a raised null or undefined makes the catch block itself
fail: the status is set to 500, nothing else is written, and a TypeError
escapes. -/
theorem render_fault_nullish_development (app : App) (chunkParams : ChunkParams)
    (explodedPathname : List String) (w w1 : World)
    (hr : app.makeLayoutHtml explodedPathname chunkParams w = (.fault .nullish, w1))
    (hdev : app.appConfig.development = true) :
    processRequestAsHtmlPage app chunkParams explodedPathname w
      = (.throw (typeErrorOnNullish app.stackFrames),
          { w1 with
            console := w1.console ++ [.nullish]
            response := w1.response.setStatusCode 500 }) := by
  rw [processRequestAsHtmlPage_of_fault app chunkParams explodedPathname w w1 _ hr]
  simp [respondToRenderFault, hdev]

/-- In development a raised value whose stack has no replace method makes the
catch block itself fail in the same way: the status is set to 500, nothing
else is written, and a TypeError escapes. -/
theorem render_fault_unusable_stack_development (app : App) (chunkParams : ChunkParams)
    (explodedPathname : List String) (w w1 : World)
    (hr : app.makeLayoutHtml explodedPathname chunkParams w = (.fault .unusableStack, w1))
    (hdev : app.appConfig.development = true) :
    processRequestAsHtmlPage app chunkParams explodedPathname w
      = (.throw (typeErrorOnStack app.stackFrames),
          { w1 with
            console := w1.console ++ [.unusableStack]
            response := w1.response.setStatusCode 500 }) := by
  rw [processRequestAsHtmlPage_of_fault app chunkParams explodedPathname w w1 _ hr]
  simp [respondToRenderFault, hdev]

/-- Data path: a response found ended after the processing collaborator is
left exactly as the collaborator left it. -/
theorem ended_after_process_no_write (app : App) (chunkParams : ChunkParams)
    (explodedPathname : List String) (w w1 : World) (value : ProcessValue)
    (hv : ajaxVersionMismatch app chunkParams.request = false)
    (hp : app.process explodedPathname explodedPathname chunkParams w = (value, w1))
    (he : w1.response.ended = true) :
    processRequestAsXhr app chunkParams explodedPathname w = w1 := by
  unfold processRequestAsXhr
  simp only [hv, hp, isResponseEnded, he, Bool.false_eq_true, if_false, if_true]

/-- Full-page path, rendered markup: a response found ended after the
asset-version lookup is left exactly as it was at that moment. -/
theorem ended_after_version_lookup_no_write (app : App) (chunkParams : ChunkParams)
    (explodedPathname : List String) (w w1 w2 : World) (markup version : String)
    (hr : app.makeLayoutHtml explodedPathname chunkParams w = (.html (some markup), w1))
    (hg : app.getGlobalFilesVersion w1 = (version, w2))
    (he : w2.response.ended = true) :
    processRequestAsHtmlPage app chunkParams explodedPathname w = (.normal, w2) := by
  unfold processRequestAsHtmlPage
  simp only [hr, hg, isResponseEnded, he, if_true]

/-! ## Lemmas on the early-hint links -/

theorem distinctInOrder_map (f : String → String) (hf : Function.Injective f)
    (l : List String) : distinctInOrder (l.map f) = (distinctInOrder l).map f := by
  induction l with
  | nil => rfl
  | cons x xs ih =>
    simp only [List.map_cons, distinctInOrder, ih, List.filter_map]
    congr 2
    apply List.filter_congr
    intro a _
    by_cases hax : a = x
    · subst hax
      simp
    · have hfa : f a ≠ f x := fun h => hax (hf h)
      show (f a != f x) = (a != x)
      rw [bne_iff_ne.2 hfa, bne_iff_ne.2 hax]

theorem distinctInOrder_append_disjoint (l1 l2 : List String)
    (h : ∀ y ∈ l2, y ∉ l1) :
    distinctInOrder (l1 ++ l2) = distinctInOrder l1 ++ distinctInOrder l2 := by
  induction l1 with
  | nil => rfl
  | cons x xs ih =>
    have hxs : ∀ y ∈ l2, y ∉ xs := fun y hy hmem => h y hy (List.mem_cons_of_mem _ hmem)
    have hkeep : (distinctInOrder l2).filter (fun y => y != x) = distinctInOrder l2 := by
      rw [List.filter_eq_self]
      intro a ha
      have hal2 : a ∈ l2 := (mem_distinctInOrder l2 a).1 ha
      have : a ≠ x := by
        intro hax
        exact h a hal2 (by simp [hax])
      simpa using this
    rw [List.cons_append]
    simp only [distinctInOrder]
    rw [ih hxs, List.filter_append, hkeep, List.cons_append]

theorem foldl_addLink (mk : String → String) (assets : AssetMap) (acc : List String) :
    assets.foldl (fun links entry => addLink mk links entry.2) acc
      = ((linkUrls assets).map mk).foldl setAdd acc := by
  induction assets generalizing acc with
  | nil => rfl
  | cons e es ih =>
    rw [List.foldl_cons, ih]
    unfold linkUrls
    cases hu : e.2.url with
    | none => simp [addLink, truthyUrl, hu]
    | some url =>
      by_cases hne : url = ""
      · simp [addLink, truthyUrl, hu, hne]
      · simp [addLink, truthyUrl, hu, hne, pushIfMissing, setAdd]

theorem earlyHintLinks_eq_distinct (ver : String) (ca : ComponentsAssets) :
    earlyHintLinks ver ca
      = distinctInOrder ((linkUrls ca.styles).map (styleLink ver)
          ++ (linkUrls ca.scripts).map (scriptLink ver)) := by
  unfold earlyHintLinks
  simp only [foldl_addLink]
  rw [← List.foldl_append, foldl_setAdd]
  simp

theorem styleLink_injective (ver : String) : Function.Injective (styleLink ver) := by
  intro a b h
  have h2 := congrArg String.data h
  simp only [styleLink, String.data_append, List.append_assoc] at h2
  have h3 := List.append_cancel_left (List.append_cancel_left (List.append_cancel_left h2))
  exact String.ext (List.append_cancel_right h3)

theorem scriptLink_injective (ver : String) : Function.Injective (scriptLink ver) := by
  intro a b h
  have h2 := congrArg String.data h
  simp only [scriptLink, String.data_append, List.append_assoc] at h2
  have h3 := List.append_cancel_left (List.append_cancel_left (List.append_cancel_left h2))
  exact String.ext (List.append_cancel_right h3)

theorem styleLink_ne_scriptLink (ver a b : String) : styleLink ver a ≠ scriptLink ver b := by
  intro h
  have h2 := congrArg String.data h
  simp only [styleLink, scriptLink, String.data_append, List.append_assoc] at h2
  have h3 := List.append_cancel_left (List.append_cancel_left (List.append_cancel_left h2))
  have h4 := congrArg List.reverse h3
  simp at h4

theorem linkUrls_eq_nil (assets : AssetMap)
    (h : ∀ entry ∈ assets, entry.2.url = none ∨ entry.2.url = some "") :
    linkUrls assets = [] := by
  unfold linkUrls
  rw [List.filterMap_eq_nil_iff]
  intro entry hm
  rcases h entry hm with hu | hu
  · simp [truthyUrl, hu]
  · simp [truthyUrl, hu]

theorem sendEarlyHints_writes (r : HttpResponse) (ver : String) (ca : ComponentsAssets) :
    (sendEarlyHints r ver ca).writes
      = r.writes ++ [.writeEarlyHints (earlyHintLinks ver ca),
          .setHeader "link" (String.intercalate ", " (earlyHintLinks ver ca))] := by
  simp [sendEarlyHints, List.append_assoc]

theorem sendEarlyHints_link (r : HttpResponse) (ver : String) (ca : ComponentsAssets) :
    (sendEarlyHints r ver ca).getHeader "link"
      = some (String.intercalate ", " (earlyHintLinks ver ca)) := by
  simp [sendEarlyHints]

/-! ## The fragment on which jsonStringify is exact -/

/-- The envelope that #respondWithError serializes lies in the fragment on
which jsonStringify is the text of the builtin, for every status code that is
a safe integer. -/
theorem errorEnvelope_inFragment (code : Nat) (e : JsError) (stack : String)
    (h : code ≤ 9007199254740991) :
    (errorEnvelope code e stack).inFragment = true := by
  have hopt : ∀ o : Option String, (optStr o).inFragment = true := by
    intro o
    cases o <;> rfl
  have hk1 : isDigitsKey "code" = false := by decide
  have hk2 : isDigitsKey "name" = false := by decide
  have hk3 : isDigitsKey "message" = false := by decide
  have hk4 : isDigitsKey "stack" = false := by decide
  have hs1 : (["code"] : List String).contains "name" = false := by decide
  have hs2 : (["name", "code"] : List String).contains "message" = false := by decide
  have hs3 : (["message", "name", "code"] : List String).contains "stack" = false := by decide
  have hnat : decide ((code : Int).natAbs ≤ 9007199254740991) = true := by
    simp only [Int.natAbs_ofNat, decide_eq_true_eq]
    exact h
  simp only [errorEnvelope, JsValue.inFragment, JsMembers.inFragment, hopt, hk1, hk2,
    hk3, hk4, hs1, hs2, hs3, hnat, List.contains_nil, Bool.not_false, Bool.and_self]

/-! ## The builder on any raised object -/

theorem envelopeJson_ofError (code : Nat) (e : JsError) (stack : String) :
    envelopeJson code (RaisedObject.ofError e).name (RaisedObject.ofError e).message stack
      = jsonStringify (errorEnvelope code e stack) := by
  cases e with
  | mk name message st isThrow =>
    cases name <;> cases message <;> rfl

theorem respondWithErrorOnObject_ofError (fmt : ServerResponseFormatter) (r : HttpResponse)
    (e : JsError) (isThrow development : Bool) :
    respondWithErrorOnObject fmt r (RaisedObject.ofError e) isThrow development
      = respondWithError fmt r e isThrow development := by
  unfold respondWithErrorOnObject respondWithError
  simp only [envelopeJson_ofError]
  rfl

theorem respondWithErrorOnObject_after_500 (fmt : ServerResponseFormatter) (r : HttpResponse)
    (o : RaisedObject) (isThrow development : Bool) :
    (respondWithErrorOnObject fmt (r.setStatusCode 500) o isThrow development).statusCode = 500
    ∧ (respondWithErrorOnObject fmt (r.setStatusCode 500) o isThrow development).ended = true
    ∧ (respondWithErrorOnObject fmt (r.setStatusCode 500) o isThrow development).writes
        = r.writes ++ [.statusCode 500,
            .setHeader "content-type" (fmt.contentType "json"),
            .setHeader "cache-control" (fmt.cacheControl "json"),
            .end_ (envelopeJson 500 o.name o.message
              (if development then replaceLeadingError (o.stack.getD "") else ""))]
    ∧ (r.ended = false →
        (respondWithErrorOnObject fmt (r.setStatusCode 500) o isThrow development).body
          = envelopeJson 500 o.name o.message
              (if development then replaceLeadingError (o.stack.getD "") else ""))
    ∧ (respondWithErrorOnObject fmt (r.setStatusCode 500) o isThrow development).getHeader
          "x-response-type"
        = r.getHeader "x-response-type" := by
  have hfmt : (fmt.setHeaders (r.setStatusCode 500) "json").getHeader "x-response-type"
      = r.getHeader "x-response-type" := by
    rw [getHeader_setHeaders fmt _ "json" "x-response-type" (by decide) (by decide)]
    rfl
  refine ⟨?_, ?_, ?_, ?_, ?_⟩
  · simp [respondWithErrorOnObject]
  · simp [respondWithErrorOnObject]
  · simp [respondWithErrorOnObject, List.append_assoc]
  · intro he
    simp [respondWithErrorOnObject, he]
  · simp [respondWithErrorOnObject, hfmt]

/-! ## Claims -/

/-- C1: for every combination of the two raw request signals, the classified
pair (isXHR, isHTML) has exactly one flag true; when the raw signals agree
(both true or both false) the pair is (true, false), otherwise the raw signals
are kept; and these are the flags parseRequest puts into the chunk parameters. -/
theorem classifier_exactly_one (isXHR isHTML : Bool) :
    ((classifyRequest isXHR isHTML).1 = !(classifyRequest isXHR isHTML).2)
    ∧ (isXHR = isHTML → classifyRequest isXHR isHTML = (true, false))
    ∧ (isXHR ≠ isHTML → classifyRequest isXHR isHTML = (isXHR, isHTML))
    ∧ (∀ (app : App) (request : HttpRequest) (query : JsValue),
        app.isRequestXHR request = isXHR → app.isRequestHtml request = isHTML →
        ((makeChunkParams app request query).isXHR,
          (makeChunkParams app request query).isHTML) = classifyRequest isXHR isHTML) := by
  refine ⟨?_, ?_, ?_, ?_⟩
  · cases isXHR <;> cases isHTML <;> rfl
  · cases isXHR <;> cases isHTML <;> simp [classifyRequest]
  · cases isXHR <;> cases isHTML <;> simp [classifyRequest]
  · intro app request query hx hh
    simp [makeChunkParams, hx, hh]

/-- C2: the string produced by the stringifier is the concatenation of the
distinct tag values of the collection in order of first occurrence: every tag
of the collection occurs exactly once among the concatenated values, no other
value occurs, and the values are ordered by the position of their first
occurrence; #stringifyComponentsAssets applies this to styles and to scripts. -/
theorem stringifier_distinct_first_occurrence (assets : AssetMap) :
    stringifier assets = String.join (distinctInOrder (tagsOf assets))
    ∧ (∀ t, t ∈ distinctInOrder (tagsOf assets) ↔ t ∈ tagsOf assets)
    ∧ (∀ t, t ∈ tagsOf assets → (distinctInOrder (tagsOf assets)).count t = 1)
    ∧ (distinctInOrder (tagsOf assets)).Pairwise
        (fun a b => (tagsOf assets).indexOf a < (tagsOf assets).indexOf b)
    ∧ (∀ ca : ComponentsAssets, stringifyComponentsAssets ca
        = (String.join (distinctInOrder (tagsOf ca.styles)),
           String.join (distinctInOrder (tagsOf ca.scripts)))) := by
  have hs : ∀ a : AssetMap, stringifier a = String.join (distinctInOrder (tagsOf a)) := by
    intro a
    unfold stringifier
    rw [tagSet_eq]
    rfl
  refine ⟨hs assets, mem_distinctInOrder _, count_distinctInOrder _,
    pairwise_indexOf_distinctInOrder _, ?_⟩
  intro ca
  simp [stringifyComponentsAssets, hs]

/-- C3: status-code policy of #respondWithError. For a response whose status
before the call is s, the status after the call is 400 if s = 200 and isThrow
is true, 200 if s = 200 and isThrow is false, and s whenever s is not 200; in
the last case the builder performs no status-code assignment at all. -/
theorem respondWithError_status_policy (fmt : ServerResponseFormatter) (r : HttpResponse)
    (error : JsError) (isThrow development : Bool) :
    (r.statusCode = 200 → isThrow = true →
        (respondWithError fmt r error isThrow development).statusCode = 400)
    ∧ (r.statusCode = 200 → isThrow = false →
        (respondWithError fmt r error isThrow development).statusCode = 200)
    ∧ (r.statusCode ≠ 200 →
        (respondWithError fmt r error isThrow development).statusCode = r.statusCode
        ∧ ∀ code, Write.statusCode code ∉
            (respondWithError fmt r error isThrow development).writes.drop r.writes.length) := by
  refine ⟨?_, ?_, ?_⟩
  · intro hs ht
    simp [respondWithError_statusCode, hs, ht]
  · intro hs ht
    simp [respondWithError_statusCode, hs, ht]
  · intro hs
    refine ⟨by simp [respondWithError_statusCode, hs], ?_⟩
    intro code
    rw [respondWithError_writes, respondWithError_statusCode]
    simp [hs, List.append_assoc]

/-- C4: a returned soft error on the data path. When the version check passes
and the processing collaborator returns an error value without an isThrow
property, leaving the response at status 200 and not ended, the response ends
with status 200, header x-response-type: error and, as body, the JSON envelope
with code 200, the name and the message of the error and the stack of the
stack policy. Moreover, for every call of the builder, it writes the header
x-response-type: error exactly when the status after the status policy is 200;
for a thrown error on a response at status 200 (status 400) it does not. -/
theorem soft_error_envelope (app : App) (chunkParams : ChunkParams)
    (explodedPathname : List String) (w w1 : World) (e : JsError)
    (hv : ajaxVersionMismatch app chunkParams.request = false)
    (hp : app.process explodedPathname explodedPathname chunkParams w = (.error e, w1))
    (hflag : e.isThrow = .undefined)
    (hs : w1.response.statusCode = 200)
    (he : w1.response.ended = false) :
    ((processRequestAsXhr app chunkParams explodedPathname w).response.ended = true
      ∧ (processRequestAsXhr app chunkParams explodedPathname w).response.statusCode = 200
      ∧ (processRequestAsXhr app chunkParams explodedPathname w).response.getHeader
          "x-response-type" = some "error"
      ∧ (processRequestAsXhr app chunkParams explodedPathname w).response.body
          = jsonStringify (.obj (.cons "code" (.num 200)
              (.cons "name" (optStr e.name)
                (.cons "message" (optStr e.message)
                  (.cons "stack" (.str (envelopeStack e app.appConfig.development)) .nil))))))
    ∧ (∀ (fmt : ServerResponseFormatter) (r : HttpResponse) (error : JsError)
        (isThrow development : Bool),
        (Write.setHeader "x-response-type" "error"
            ∈ (respondWithError fmt r error isThrow development).writes.drop r.writes.length
          ↔ (respondWithError fmt r error isThrow development).statusCode = 200)
        ∧ (r.statusCode = 200 → isThrow = true →
            (respondWithError fmt r error isThrow development).statusCode = 400
            ∧ (respondWithError fmt r error isThrow development).getHeader "x-response-type"
                = r.getHeader "x-response-type")) := by
  constructor
  · rw [processRequestAsXhr_of_process app chunkParams explodedPathname w w1 _ hv hp he]
    unfold respondWithValue
    have hst : (respondWithError app.serverResponseFormatter w1.response e
        e.isThrow.truthy app.appConfig.development).statusCode = 200 := by
      simp [respondWithError_statusCode, hs, hflag, JsValue.truthy]
    refine ⟨rfl, hst, ?_, ?_⟩
    · show HttpResponse.getHeader (respondWithError app.serverResponseFormatter w1.response e
          e.isThrow.truthy app.appConfig.development) "x-response-type" = some "error"
      rw [respondWithError_responseType, if_pos hst]
    · show HttpResponse.body (respondWithError app.serverResponseFormatter w1.response e
          e.isThrow.truthy app.appConfig.development) = _
      rw [respondWithError_body _ _ _ _ _ he, hst]
      rfl
  · intro fmt r error isThrow development
    constructor
    · rw [respondWithError_writes]
      by_cases h200 : (respondWithError fmt r error isThrow development).statusCode = 200
      · simp [h200, List.append_assoc]
      · by_cases hr : r.statusCode = 200
        · simp [h200, hr, List.append_assoc]
        · simp [h200, hr, List.append_assoc]
    · intro hr ht
      have h400 : (respondWithError fmt r error isThrow development).statusCode = 400 := by
        simp [respondWithError_statusCode, hr, ht]
      refine ⟨h400, ?_⟩
      rw [respondWithError_responseType, h400]
      simp

/-- Witness for C4: a version-less request whose processing returns sampleError. -/
theorem soft_error_envelope_witness :
    (processRequestAsXhr (sampleApp false (fun w => (.html none, w))
        (fun w => (.error sampleError, w))) (sampleChunkParams "POST" none) []
        sampleWorld).response.statusCode = 200
    ∧ (processRequestAsXhr (sampleApp false (fun w => (.html none, w))
        (fun w => (.error sampleError, w))) (sampleChunkParams "POST" none) []
        sampleWorld).response.body
        = some "\x7b\"code\":200,\"name\":\"ValidationError\",\"message\":\"bad input\",\"stack\":\"\"\x7d" :=
  have h := (soft_error_envelope (sampleApp false (fun w => (.html none, w))
      (fun w => (.error sampleError, w))) (sampleChunkParams "POST" none) []
      sampleWorld sampleWorld sampleError (by decide) rfl rfl rfl rfl).1
  ⟨h.2.1, h.2.2.2.trans (by decide)⟩

/-- C5 as stated fails on two inputs. A version header that is present with
the empty string as value differs from the configured version 1, yet the
processing collaborator decides the response (two collaborators give two
different bodies, with status 200). And on a response whose status was already
set to 404, a mismatching header leaves status 404 with envelope code 404
instead of 400. -/
theorem version_check_counterexample :
    ((numberApp 7).getHeaderAsString (sampleRequest "POST" (some "")) "x-ajax-version"
        = some ""
      ∧ "" ≠ (numberApp 7).appConfig.ajaxVersion
      ∧ (processRequestAsXhr (numberApp 7) (sampleChunkParams "POST" (some "")) []
          sampleWorld).response.statusCode = 200
      ∧ (processRequestAsXhr (numberApp 7) (sampleChunkParams "POST" (some "")) []
          sampleWorld).response.body = some "7"
      ∧ (processRequestAsXhr (numberApp 8) (sampleChunkParams "POST" (some "")) []
          sampleWorld).response.body = some "8")
    ∧ ((processRequestAsXhr (numberApp 7) (sampleChunkParams "POST" (some "2")) []
          sampleWorldAt404).response.statusCode = 404
      ∧ (processRequestAsXhr (numberApp 7) (sampleChunkParams "POST" (some "2")) []
          sampleWorldAt404).response.body
        = some "\x7b\"code\":404,\"name\":\"Error\",\"message\":\"Wrong version\",\"stack\":\"\"\x7d") := by
  decide

/-- C5, amended: when the x-ajax-version header is present, not empty and
different from the configured version, the processing collaborator is never
invoked (the outcome is the same for every processing collaborator and is the
Error Envelope Builder applied to a new error carrying the configured mismatch
message, as a thrown error); on a response that is still at status 200 and not
ended, the response ends with status 400 and an envelope whose code is 400,
whose name is Error and whose message is the configured mismatch message. -/
theorem version_mismatch_envelope (app : App) (chunkParams : ChunkParams)
    (explodedPathname : List String) (w : World) (v : String)
    (hh : app.getHeaderAsString chunkParams.request "x-ajax-version" = some v)
    (hne : v ≠ "") (hdiff : v ≠ app.appConfig.ajaxVersion) :
    (∀ process : List String → List String → ChunkParams → World → ProcessValue × World,
        processRequestAsXhr { app with process := process } chunkParams explodedPathname w
          = { w with
              response := respondWithError app.serverResponseFormatter w.response
                (newError app.stackFrames app.appConfig.wrongVersionMessage) true
                app.appConfig.development })
    ∧ processRequestAsXhr app chunkParams explodedPathname w
        = { w with
            response := respondWithError app.serverResponseFormatter w.response
              (newError app.stackFrames app.appConfig.wrongVersionMessage) true
              app.appConfig.development }
    ∧ (w.response.statusCode = 200 → w.response.ended = false →
        (processRequestAsXhr app chunkParams explodedPathname w).response.ended = true
        ∧ (processRequestAsXhr app chunkParams explodedPathname w).response.statusCode = 400
        ∧ (processRequestAsXhr app chunkParams explodedPathname w).response.body
            = jsonStringify (.obj (.cons "code" (.num 400)
                (.cons "name" (.str "Error")
                  (.cons "message" (.str app.appConfig.wrongVersionMessage)
                    (.cons "stack" (.str (envelopeStack
                      (newError app.stackFrames app.appConfig.wrongVersionMessage)
                      app.appConfig.development)) .nil)))))) := by
  have hm := ajaxVersionMismatch_of_header app chunkParams.request v hh hne hdiff
  have hmain := processRequestAsXhr_of_mismatch app chunkParams explodedPathname w hm
  refine ⟨?_, hmain, ?_⟩
  · intro process
    exact processRequestAsXhr_of_mismatch { app with process := process } chunkParams
      explodedPathname w hm
  · intro hs he
    rw [hmain]
    have hst : (respondWithError app.serverResponseFormatter w.response
        (newError app.stackFrames app.appConfig.wrongVersionMessage) true
        app.appConfig.development).statusCode = 400 := by
      simp [respondWithError_statusCode, hs]
    refine ⟨rfl, hst, ?_⟩
    show HttpResponse.body (respondWithError app.serverResponseFormatter w.response
        (newError app.stackFrames app.appConfig.wrongVersionMessage) true
        app.appConfig.development) = _
    rw [respondWithError_body _ _ _ _ _ he, hst]
    rfl

/-- Witness for C5: version header 2 against the configured version 1. -/
theorem version_mismatch_envelope_witness :
    (processRequestAsXhr (sampleApp false (fun w => (.html none, w))
        (fun w => (.other (smallNumber 7), w))) (sampleChunkParams "POST" (some "2")) []
        sampleWorld).response.statusCode = 400
    ∧ (processRequestAsXhr (sampleApp false (fun w => (.html none, w))
        (fun w => (.other (smallNumber 7), w))) (sampleChunkParams "POST" (some "2")) []
        sampleWorld).response.body
        = some "\x7b\"code\":400,\"name\":\"Error\",\"message\":\"Wrong version\",\"stack\":\"\"\x7d" :=
  have h := (version_mismatch_envelope (sampleApp false (fun w => (.html none, w))
      (fun w => (.other (smallNumber 7), w))) (sampleChunkParams "POST" (some "2")) []
      sampleWorld "2" rfl (by decide) (by decide)).2.2 rfl rfl
  ⟨h.2.1, h.2.2.trans (by decide)⟩

/-- C6: result dispatch on the data path. When the version check passes and
the processing collaborator returns a value that is not an error, leaving the
response not ended: for a primitive string or a boxed string with content s the
core sets the headers for kind txt, sets x-response-type to string and ends
the response with body s (the same response in both cases); for any other
value it sets the headers for kind json, sets x-response-type to json and ends
the response with the text the builtin JSON.stringify returns for the value;
for a value of the modelled fragment that text is the one computed by
jsonStringify. -/
theorem result_dispatch (app : App) (chunkParams : ChunkParams)
    (explodedPathname : List String) (w w1 : World) (value : ProcessValue)
    (hv : ajaxVersionMismatch app chunkParams.request = false)
    (hp : app.process explodedPathname explodedPathname chunkParams w = (value, w1))
    (he : w1.response.ended = false) :
    (∀ s, value = .string s ∨ value = .boxedString s →
        processRequestAsXhr app chunkParams explodedPathname w
          = { w1 with
              response := HttpResponse.end_ (HttpResponse.setHeader
                (app.serverResponseFormatter.setHeaders w1.response "txt")
                "x-response-type" "string") (some s) }
        ∧ (processRequestAsXhr app chunkParams explodedPathname w).response.getHeader
            "x-response-type" = some "string"
        ∧ (processRequestAsXhr app chunkParams explodedPathname w).response.body = some s
        ∧ (processRequestAsXhr app chunkParams explodedPathname w).response.ended = true)
    ∧ (∀ v : OtherValue, value = .other v →
        processRequestAsXhr app chunkParams explodedPathname w
          = { w1 with
              response := HttpResponse.end_ (HttpResponse.setHeader
                (app.serverResponseFormatter.setHeaders w1.response "json")
                "x-response-type" "json") v.json }
        ∧ (processRequestAsXhr app chunkParams explodedPathname w).response.getHeader
            "x-response-type" = some "json"
        ∧ (processRequestAsXhr app chunkParams explodedPathname w).response.body = v.json
        ∧ (processRequestAsXhr app chunkParams explodedPathname w).response.writes
            = w1.response.writes
              ++ [.setHeader "content-type" (app.serverResponseFormatter.contentType "json"),
                  .setHeader "cache-control" (app.serverResponseFormatter.cacheControl "json"),
                  .setHeader "x-response-type" "json", .end_ v.json]
        ∧ (processRequestAsXhr app chunkParams explodedPathname w).response.ended = true)
    ∧ (∀ (j : JsValue) (hj : j.inFragment = true),
        value = .other (OtherValue.ofJsValue j hj) →
        (processRequestAsXhr app chunkParams explodedPathname w).response.body
          = jsonStringify j) := by
  have hmain := processRequestAsXhr_of_process app chunkParams explodedPathname w w1 value
    hv hp he
  have hother : ∀ v : OtherValue, value = .other v →
      processRequestAsXhr app chunkParams explodedPathname w
        = { w1 with
            response := HttpResponse.end_ (HttpResponse.setHeader
              (app.serverResponseFormatter.setHeaders w1.response "json")
              "x-response-type" "json") v.json } := by
    intro v hs
    rw [hmain, hs]
    rfl
  refine ⟨?_, ?_, ?_⟩
  · intro s hs
    have hout : processRequestAsXhr app chunkParams explodedPathname w
        = { w1 with
            response := HttpResponse.end_ (HttpResponse.setHeader
              (app.serverResponseFormatter.setHeaders w1.response "txt")
              "x-response-type" "string") (some s) } := by
      rcases hs with hs | hs <;> (rw [hmain, hs]; rfl)
    refine ⟨hout, ?_, ?_, ?_⟩ <;> rw [hout] <;> simp [he]
  · intro v hs
    have hout := hother v hs
    refine ⟨hout, ?_, ?_, ?_, ?_⟩ <;> rw [hout] <;> simp [he, List.append_assoc]
  · intro j hj hs
    rw [hother _ hs]
    simp [he, OtherValue.ofJsValue]

/-- Witness for C6: the primitive string hello gives body hello; the object
with the single member a: 1 gives its JSON text; the number 10^21 and an
object with an integer-like key give the text of the builtin. -/
theorem result_dispatch_witness :
    (processRequestAsXhr (sampleApp false (fun w => (.html none, w))
        (fun w => (.string "hello", w))) (sampleChunkParams "POST" none) []
        sampleWorld).response.body = some "hello"
    ∧ (processRequestAsXhr (sampleApp false (fun w => (.html none, w))
        (fun w => (.string "hello", w))) (sampleChunkParams "POST" none) []
        sampleWorld).response.getHeader "x-response-type" = some "string"
    ∧ (processRequestAsXhr (sampleApp false (fun w => (.html none, w))
        (fun w => (.other objectA1, w)))
        (sampleChunkParams "POST" none) [] sampleWorld).response.body
        = some "\x7b\"a\":1\x7d"
    ∧ (processRequestAsXhr (sampleApp false (fun w => (.html none, w))
        (fun w => (.other objectA1, w)))
        (sampleChunkParams "POST" none) [] sampleWorld).response.getHeader
        "x-response-type" = some "json"
    ∧ (processRequestAsXhr (sampleApp false (fun w => (.html none, w))
        (fun w => (.other largeNumber, w)))
        (sampleChunkParams "POST" none) [] sampleWorld).response.body = some "1e+21"
    ∧ (processRequestAsXhr (sampleApp false (fun w => (.html none, w))
        (fun w => (.other objectB1, w)))
        (sampleChunkParams "POST" none) [] sampleWorld).response.body
        = some "\x7b\"1\":2,\"b\":1\x7d" :=
  have h1 := (result_dispatch (sampleApp false (fun w => (.html none, w))
      (fun w => (.string "hello", w))) (sampleChunkParams "POST" none) []
      sampleWorld sampleWorld (.string "hello") (by decide) rfl rfl).1 "hello" (Or.inl rfl)
  have h2 := (result_dispatch (sampleApp false (fun w => (.html none, w))
      (fun w => (.other objectA1, w)))
      (sampleChunkParams "POST" none) [] sampleWorld sampleWorld
      (.other objectA1) (by decide) rfl rfl).2.1 _ rfl
  have h3 := (result_dispatch (sampleApp false (fun w => (.html none, w))
      (fun w => (.other largeNumber, w)))
      (sampleChunkParams "POST" none) [] sampleWorld sampleWorld
      (.other largeNumber) (by decide) rfl rfl).2.1 _ rfl
  have h4 := (result_dispatch (sampleApp false (fun w => (.html none, w))
      (fun w => (.other objectB1, w)))
      (sampleChunkParams "POST" none) [] sampleWorld sampleWorld
      (.other objectB1) (by decide) rfl rfl).2.1 _ rfl
  ⟨h1.2.2.1, h1.2.1, h2.2.2.1.trans (by decide), h2.2.1, h3.2.2.1, h4.2.2.1⟩

/-- C7 as stated fails in development for a fault without a stack: the
response ends with status 500, but the stack of the envelope is empty. -/
theorem render_fault_counterexample :
    (faultApp true (.value sampleError)).appConfig.development = true
    ∧ (processRequestAsHtmlPage (faultApp true (.value sampleError))
        (sampleChunkParams "GET" none) [] sampleWorld).2.response.statusCode = 500
    ∧ (processRequestAsHtmlPage (faultApp true (.value sampleError))
        (sampleChunkParams "GET" none) [] sampleWorld).2.response.body
        = some "\x7b\"code\":500,\"name\":\"ValidationError\",\"message\":\"bad input\",\"stack\":\"\"\x7d" := by
  decide

/-- C7, amended: when the rendering collaborator raises a fault, then with the
development flag false, for every raised value, and with the development flag
true, for every raised value that is not null or undefined and whose stack is
a string or absent, the core assigns status 500, sets the headers for kind
json and ends the response with the error envelope of code 500 (these are its
only writes, so no document is assembled, and the outcome does not depend on
the asset-version and bootstrap-script collaborators). With the flag false the
envelope carries the name Error, the message Internal Server Error and the
empty stack; with the flag true it carries the name and message of the raised
value and, as stack, its stack without the leading generic header (empty when
it has no stack). -/
theorem render_fault_envelope (app : App) (chunkParams : ChunkParams)
    (explodedPathname : List String) (w w1 : World) (error : Thrown)
    (hr : app.makeLayoutHtml explodedPathname chunkParams w = (.fault error, w1)) :
    (app.appConfig.development = false →
        (processRequestAsHtmlPage app chunkParams explodedPathname w).1 = .normal
        ∧ (processRequestAsHtmlPage app chunkParams explodedPathname w).2.response.statusCode
            = 500
        ∧ (processRequestAsHtmlPage app chunkParams explodedPathname w).2.response.ended = true
        ∧ (processRequestAsHtmlPage app chunkParams explodedPathname w).2.response.writes
            = w1.response.writes ++ [.statusCode 500,
                .setHeader "content-type" (app.serverResponseFormatter.contentType "json"),
                .setHeader "cache-control" (app.serverResponseFormatter.cacheControl "json"),
                .end_ (jsonStringify (.obj (.cons "code" (.num 500)
                  (.cons "name" (.str "Error")
                    (.cons "message" (.str "Internal Server Error")
                      (.cons "stack" (.str "") .nil))))))]
        ∧ (w1.response.ended = false →
            (processRequestAsHtmlPage app chunkParams explodedPathname w).2.response.body
              = jsonStringify (.obj (.cons "code" (.num 500)
                  (.cons "name" (.str "Error")
                    (.cons "message" (.str "Internal Server Error")
                      (.cons "stack" (.str "") .nil)))))))
    ∧ (app.appConfig.development = true → ∀ e, error = .value e →
        (processRequestAsHtmlPage app chunkParams explodedPathname w).1 = .normal
        ∧ (processRequestAsHtmlPage app chunkParams explodedPathname w).2.response.statusCode
            = 500
        ∧ (processRequestAsHtmlPage app chunkParams explodedPathname w).2.response.ended = true
        ∧ (processRequestAsHtmlPage app chunkParams explodedPathname w).2.response.writes
            = w1.response.writes ++ [.statusCode 500,
                .setHeader "content-type" (app.serverResponseFormatter.contentType "json"),
                .setHeader "cache-control" (app.serverResponseFormatter.cacheControl "json"),
                .end_ (jsonStringify (.obj (.cons "code" (.num 500)
                  (.cons "name" (optStr e.name)
                    (.cons "message" (optStr e.message)
                      (.cons "stack" (.str (replaceLeadingError (e.stack.getD ""))) .nil))))))]
        ∧ (w1.response.ended = false →
            (processRequestAsHtmlPage app chunkParams explodedPathname w).2.response.body
              = jsonStringify (.obj (.cons "code" (.num 500)
                  (.cons "name" (optStr e.name)
                    (.cons "message" (optStr e.message)
                      (.cons "stack" (.str (replaceLeadingError (e.stack.getD ""))) .nil)))))))
    ∧ (app.appConfig.development = true → ∀ o, error = .object o →
        (processRequestAsHtmlPage app chunkParams explodedPathname w).1 = .normal
        ∧ (processRequestAsHtmlPage app chunkParams explodedPathname w).2.response.statusCode
            = 500
        ∧ (processRequestAsHtmlPage app chunkParams explodedPathname w).2.response.ended = true
        ∧ (processRequestAsHtmlPage app chunkParams explodedPathname w).2.response.writes
            = w1.response.writes ++ [.statusCode 500,
                .setHeader "content-type" (app.serverResponseFormatter.contentType "json"),
                .setHeader "cache-control" (app.serverResponseFormatter.cacheControl "json"),
                .end_ (envelopeJson 500 o.name o.message
                  (replaceLeadingError (o.stack.getD "")))]
        ∧ (w1.response.ended = false →
            (processRequestAsHtmlPage app chunkParams explodedPathname w).2.response.body
              = envelopeJson 500 o.name o.message (replaceLeadingError (o.stack.getD ""))))
    ∧ (∀ (lookup : World → String × World) (scripts : String → World → String × World),
        processRequestAsHtmlPage
            { app with getGlobalFilesVersion := lookup, getScriptFromRepository := scripts }
            chunkParams explodedPathname w
          = processRequestAsHtmlPage app chunkParams explodedPathname w) := by
  have hmain := processRequestAsHtmlPage_of_fault app chunkParams explodedPathname w w1 error hr
  refine ⟨?_, ?_, ?_, ?_⟩
  · intro hdev
    have hout : processRequestAsHtmlPage app chunkParams explodedPathname w
        = (.normal, { w1 with
            console := w1.console ++ [error]
            response := respondWithError app.serverResponseFormatter
              (w1.response.setStatusCode 500)
              (newError app.stackFrames "Internal Server Error") true false }) := by
      rw [hmain]
      simp [respondToRenderFault, hdev]
    obtain ⟨h1, h2, h3⟩ := respondWithError_after_500 app.serverResponseFormatter w1.response
      (newError app.stackFrames "Internal Server Error") true false
    rw [hout]
    exact ⟨rfl, h1, rfl, h2, h3⟩
  · intro hdev e he
    have hout : processRequestAsHtmlPage app chunkParams explodedPathname w
        = (.normal, { w1 with
            console := w1.console ++ [error]
            response := respondWithError app.serverResponseFormatter
              (w1.response.setStatusCode 500) e true true }) := by
      rw [hmain, he]
      simp [respondToRenderFault, hdev]
    obtain ⟨h1, h2, h3⟩ := respondWithError_after_500 app.serverResponseFormatter w1.response
      e true true
    rw [hout]
    exact ⟨rfl, h1, rfl, h2, h3⟩
  · intro hdev o ho
    have hout : processRequestAsHtmlPage app chunkParams explodedPathname w
        = (.normal, { w1 with
            console := w1.console ++ [error]
            response := respondWithErrorOnObject app.serverResponseFormatter
              (w1.response.setStatusCode 500) o true true }) := by
      rw [hmain, ho]
      simp [respondToRenderFault, hdev]
    obtain ⟨h1, h2, h3, h4, _⟩ := respondWithErrorOnObject_after_500
      app.serverResponseFormatter w1.response o true true
    rw [hout]
    exact ⟨rfl, h1, h2, h3, h4⟩
  · intro lookup scripts
    rw [hmain]
    exact processRequestAsHtmlPage_of_fault
      { app with getGlobalFilesVersion := lookup, getScriptFromRepository := scripts }
      chunkParams explodedPathname w w1 error hr

/-- Witness for C7: in production the envelope of any fault is the generic
one; in development a fault with a stack gives that stack without its header,
also when its name is not a string. -/
theorem render_fault_envelope_witness :
    (processRequestAsHtmlPage (faultApp false (.value sampleFault))
        (sampleChunkParams "GET" none) [] sampleWorld).2.response.body
      = some "\x7b\"code\":500,\"name\":\"Error\",\"message\":\"Internal Server Error\",\"stack\":\"\"\x7d"
    ∧ (processRequestAsHtmlPage (faultApp true (.value sampleFault))
        (sampleChunkParams "GET" none) [] sampleWorld).2.response.body
      = some "\x7b\"code\":500,\"name\":\"RangeError\",\"message\":\"boom\",\"stack\":\"boom at render\"\x7d"
    ∧ (processRequestAsHtmlPage (faultApp true (.object numberedFault))
        (sampleChunkParams "GET" none) [] sampleWorld).2.response.body
      = some "\x7b\"code\":500,\"name\":42,\"message\":\"m\",\"stack\":\"x\"\x7d" :=
  have h1 := (render_fault_envelope (faultApp false (.value sampleFault))
    (sampleChunkParams "GET" none) [] sampleWorld sampleWorld (.value sampleFault) rfl).1 rfl
  have h2 := (render_fault_envelope (faultApp true (.value sampleFault))
    (sampleChunkParams "GET" none) [] sampleWorld sampleWorld (.value sampleFault) rfl).2.1
    rfl sampleFault rfl
  have h3 := (render_fault_envelope (faultApp true (.object numberedFault))
    (sampleChunkParams "GET" none) [] sampleWorld sampleWorld (.object numberedFault)
    rfl).2.2.1 rfl numberedFault rfl
  ⟨(h1.2.2.2.2 rfl).trans (by decide), (h2.2.2.2.2 rfl).trans (by decide),
    (h3.2.2.2.2 rfl).trans (by decide)⟩

/-- C8 as stated fails: for the empty asset collection the emitter still calls
writeEarlyHints, with an empty link list, and sets the Link header, to the
empty string; the same happens inside the full-page path for a rendered page
without assets on an HTTP/2 response with early hints enabled. -/
theorem early_hints_counterexample :
    (sendEarlyHints (HttpResponse.fresh true) "v1" { scripts := [], styles := [] }).writes
        = [.writeEarlyHints [], .setHeader "link" ""]
    ∧ (sendEarlyHints (HttpResponse.fresh true) "v1"
        { scripts := [], styles := [] }).getHeader "link" = some ""
    ∧ Write.writeEarlyHints [] ∈ (processRequestAsHtmlPage (pageApp (some "<p>Hi</p>"))
        (sampleChunkParams "GET" none) [] sampleWorld).2.response.writes
    ∧ (processRequestAsHtmlPage (pageApp (some "<p>Hi</p>"))
        (sampleChunkParams "GET" none) [] sampleWorld).2.response.getHeader "link"
        = some "" := by
  decide

/-- C8, amended: for every asset collection in which no style or script asset
has a truthy url (including the empty collection), the link list built by the
emitter is empty: writeEarlyHints is called with an empty link list, so no
link value is pushed, and the Link header is set to the empty string. -/
theorem early_hints_without_urls (r : HttpResponse) (ver : String) (ca : ComponentsAssets)
    (h : ∀ entry ∈ ca.styles ++ ca.scripts, entry.2.url = none ∨ entry.2.url = some "") :
    earlyHintLinks ver ca = []
    ∧ (sendEarlyHints r ver ca).writes
        = r.writes ++ [.writeEarlyHints [], .setHeader "link" ""]
    ∧ (sendEarlyHints r ver ca).getHeader "link" = some "" := by
  have hstyles : linkUrls ca.styles = [] :=
    linkUrls_eq_nil _ (fun entry hm => h entry (List.mem_append_left _ hm))
  have hscripts : linkUrls ca.scripts = [] :=
    linkUrls_eq_nil _ (fun entry hm => h entry (List.mem_append_right _ hm))
  have hlinks : earlyHintLinks ver ca = [] := by
    rw [earlyHintLinks_eq_distinct, hstyles, hscripts]
    rfl
  refine ⟨hlinks, ?_, ?_⟩
  · rw [sendEarlyHints_writes, hlinks]
    rfl
  · rw [sendEarlyHints_link, hlinks]
    rfl

/-- Witness for C8: one style asset without a url. -/
theorem early_hints_without_urls_witness :
    earlyHintLinks "v1" assetsWithoutUrl = []
    ∧ (sendEarlyHints (HttpResponse.fresh true) "v1" assetsWithoutUrl).writes
        = [.writeEarlyHints [], .setHeader "link" ""] :=
  have h := early_hints_without_urls (HttpResponse.fresh true) "v1" assetsWithoutUrl
    (by decide)
  ⟨h.1, h.2.1⟩

/-- C9, the failing input: the rendering collaborator ends the response (a
redirect with status 302) and returns null. When control resumes the response
is ended, and the core still assigns status 404, sets the headers for kind
html and calls end with the text Page Not Found. -/
theorem cancellation_guard_missing_on_null :
    (redirectApp.makeLayoutHtml [] (sampleChunkParams "GET" none) sampleWorld).2.response.ended
        = true
    ∧ (redirectApp.makeLayoutHtml [] (sampleChunkParams "GET" none) sampleWorld).2.response.writes
        = [.statusCode 302, .end_ none]
    ∧ (processRequestAsHtmlPage redirectApp (sampleChunkParams "GET" none) []
        sampleWorld).2.response.writes
        = [.statusCode 302, .end_ none, .statusCode 404,
            .setHeader "content-type" "text/html", .setHeader "cache-control" "no-cache",
            .end_ (some "Page Not Found")]
    ∧ (processRequestAsHtmlPage redirectApp (sampleChunkParams "GET" none) []
        sampleWorld).2.response.statusCode = 404 := by
  decide

/-- C10: the link list pushed by #sendEarlyHints has no two equal values; it
is the list of the style links of the distinct style urls followed by the
script links of the distinct script urls, each in order of first occurrence,
so every url of a style asset and every url of a script asset gives exactly
one entry, whatever the keys; the emitter pushes this list with
writeEarlyHints and then sets the Link header to the same values joined by a
comma and a space. -/
theorem early_hints_deduplicated (r : HttpResponse) (ver : String) (ca : ComponentsAssets) :
    (earlyHintLinks ver ca).Nodup
    ∧ earlyHintLinks ver ca
        = (distinctInOrder (linkUrls ca.styles)).map (styleLink ver)
          ++ (distinctInOrder (linkUrls ca.scripts)).map (scriptLink ver)
    ∧ (∀ url, url ∈ linkUrls ca.styles → (earlyHintLinks ver ca).count (styleLink ver url) = 1)
    ∧ (∀ url, url ∈ linkUrls ca.scripts →
        (earlyHintLinks ver ca).count (scriptLink ver url) = 1)
    ∧ (∀ link, link ∈ earlyHintLinks ver ca ↔
        (∃ url, url ∈ linkUrls ca.styles ∧ link = styleLink ver url)
        ∨ (∃ url, url ∈ linkUrls ca.scripts ∧ link = scriptLink ver url))
    ∧ (sendEarlyHints r ver ca).writes
        = r.writes ++ [.writeEarlyHints (earlyHintLinks ver ca),
            .setHeader "link" (String.intercalate ", " (earlyHintLinks ver ca))]
    ∧ (sendEarlyHints r ver ca).getHeader "link"
        = some (String.intercalate ", " (earlyHintLinks ver ca))
    ∧ styleLink "v1" "a.css" = "</v1/a.css>; rel=\"preload\"; as=\"style\""
    ∧ scriptLink "v1" "a.js" = "</v1/a.js>; rel=\"modulepreload\"; as=\"script\""
    ∧ earlyHintLinks "v1" assetsWithRepeatedUrl
        = ["</v1/a.css>; rel=\"preload\"; as=\"style\"",
           "</v1/a.js>; rel=\"modulepreload\"; as=\"script\""] := by
  have hd := earlyHintLinks_eq_distinct ver ca
  have hmem : ∀ link, link ∈ earlyHintLinks ver ca ↔
      (∃ url, url ∈ linkUrls ca.styles ∧ link = styleLink ver url)
      ∨ (∃ url, url ∈ linkUrls ca.scripts ∧ link = scriptLink ver url) := by
    intro link
    rw [hd, mem_distinctInOrder, List.mem_append, List.mem_map, List.mem_map]
    constructor
    · rintro (⟨u, hu, rfl⟩ | ⟨u, hu, rfl⟩)
      · exact Or.inl ⟨u, hu, rfl⟩
      · exact Or.inr ⟨u, hu, rfl⟩
    · rintro (⟨u, hu, rfl⟩ | ⟨u, hu, rfl⟩)
      · exact Or.inl ⟨u, hu, rfl⟩
      · exact Or.inr ⟨u, hu, rfl⟩
  have hnodup : (earlyHintLinks ver ca).Nodup := by
    rw [hd]
    exact nodup_distinctInOrder _
  refine ⟨hnodup, ?_, ?_, ?_, hmem, sendEarlyHints_writes r ver ca,
    sendEarlyHints_link r ver ca, by decide, by decide, by decide⟩
  · rw [hd, distinctInOrder_append_disjoint, distinctInOrder_map _ (styleLink_injective ver),
      distinctInOrder_map _ (scriptLink_injective ver)]
    intro y hy hy2
    obtain ⟨b, _, rfl⟩ := List.mem_map.1 hy
    obtain ⟨a, _, ha⟩ := List.mem_map.1 hy2
    exact styleLink_ne_scriptLink ver a b ha
  · intro url hu
    exact List.count_eq_one_of_mem hnodup ((hmem _).2 (Or.inl ⟨url, hu, rfl⟩))
  · intro url hu
    exact List.count_eq_one_of_mem hnodup ((hmem _).2 (Or.inr ⟨url, hu, rfl⟩))

/-! ## Dispatcher and not-found page -/

theorem parseRequest_eq (app : App) (request : HttpRequest) (response : HttpResponse)
    (explodedPathname : List String) :
    parseRequest app request response explodedPathname
      = if selectsFullPage app request = true then
          processRequestAsHtmlPage app (dispatchChunkParams app request response)
            explodedPathname (dispatchWorld app request response)
        else
          (.normal, processRequestAsXhr app (dispatchChunkParams app request response)
            explodedPathname (dispatchWorld app request response)) := by
  unfold parseRequest selectsFullPage dispatchChunkParams dispatchWorld makeChunkParams
    classifyRequest
  cases hx : app.isRequestXHR request <;> cases hh : app.isRequestHtml request <;>
    cases hm : (request.method == "GET") <;> simp [hx, hh, hm]

/-- C11: parseRequest runs exactly one of the two paths, once: its outcome is
the outcome of the full-page path when the method is GET and the classified
flags are isXHR = false and isHTML = true, and the outcome of the data path
otherwise; the condition is the same as method GET, raw HTML signal true and
raw XHR signal false; any request whose method is not GET runs the data path;
and the collaborators of the path not taken are not invoked (replacing them
does not change the outcome). -/
theorem dispatcher_selects_one_path (app : App) (request : HttpRequest)
    (response : HttpResponse) (explodedPathname : List String) :
    ((request.method = "GET"
        ∧ (dispatchChunkParams app request response).isXHR = false
        ∧ (dispatchChunkParams app request response).isHTML = true)
      ↔ (request.method = "GET" ∧ app.isRequestHtml request = true
          ∧ app.isRequestXHR request = false))
    ∧ ((request.method = "GET"
          ∧ (dispatchChunkParams app request response).isXHR = false
          ∧ (dispatchChunkParams app request response).isHTML = true) →
        parseRequest app request response explodedPathname
          = processRequestAsHtmlPage app (dispatchChunkParams app request response)
              explodedPathname (dispatchWorld app request response)
        ∧ ∀ process : List String → List String → ChunkParams → World → ProcessValue × World,
            parseRequest { app with process := process } request response explodedPathname
              = parseRequest app request response explodedPathname)
    ∧ (¬ (request.method = "GET"
          ∧ (dispatchChunkParams app request response).isXHR = false
          ∧ (dispatchChunkParams app request response).isHTML = true) →
        parseRequest app request response explodedPathname
          = (.normal, processRequestAsXhr app (dispatchChunkParams app request response)
              explodedPathname (dispatchWorld app request response))
        ∧ ∀ (render : List String → ChunkParams → World → RenderResult × World)
            (lookup : World → String × World) (scripts : String → World → String × World),
            parseRequest
                { app with makeLayoutHtml := render, getGlobalFilesVersion := lookup,
                           getScriptFromRepository := scripts }
                request response explodedPathname
              = parseRequest app request response explodedPathname)
    ∧ (request.method ≠ "GET" →
        parseRequest app request response explodedPathname
          = (.normal, processRequestAsXhr app (dispatchChunkParams app request response)
              explodedPathname (dispatchWorld app request response))) := by
  have hflags : (request.method = "GET"
        ∧ (dispatchChunkParams app request response).isXHR = false
        ∧ (dispatchChunkParams app request response).isHTML = true)
      ↔ (request.method = "GET" ∧ app.isRequestHtml request = true
          ∧ app.isRequestXHR request = false) := by
    unfold dispatchChunkParams makeChunkParams classifyRequest
    cases hx : app.isRequestXHR request <;> cases hh : app.isRequestHtml request <;>
      simp [hx, hh]
  have hsel : selectsFullPage app request = true
      ↔ (request.method = "GET" ∧ app.isRequestHtml request = true
          ∧ app.isRequestXHR request = false) := by
    unfold selectsFullPage
    simp [Bool.and_eq_true, and_assoc]
  refine ⟨hflags, ?_, ?_, ?_⟩
  · intro h
    have hs : selectsFullPage app request = true := hsel.2 (hflags.1 h)
    constructor
    · rw [parseRequest_eq, if_pos hs]
    · intro process
      rw [parseRequest_eq, parseRequest_eq app]
      have hs2 : selectsFullPage { app with process := process } request = true := hs
      rw [if_pos hs, if_pos hs2]
      rfl
  · intro h
    have hs : ¬ selectsFullPage app request = true := fun hs => h (hflags.2 (hsel.1 hs))
    constructor
    · rw [parseRequest_eq, if_neg hs]
    · intro render lookup scripts
      rw [parseRequest_eq, parseRequest_eq app]
      have hs2 : ¬ selectsFullPage
          { app with makeLayoutHtml := render, getGlobalFilesVersion := lookup,
                     getScriptFromRepository := scripts } request = true := hs
      rw [if_neg hs, if_neg hs2]
      rfl
  · intro hm
    have hs : ¬ selectsFullPage app request = true := fun hs => hm (hsel.1 hs).1
    rw [parseRequest_eq, if_neg hs]

/-- C12: when the rendering collaborator returns null, the core assigns
status 404, sets the headers for kind html and ends the response with the
text Page Not Found (its only writes); the response is a function of the
response left by the collaborator alone, so nothing is stringified or
assembled, and the asset-version and bootstrap-script collaborators are not
invoked. -/
theorem not_found_page (app : App) (chunkParams : ChunkParams)
    (explodedPathname : List String) (w w1 : World)
    (hr : app.makeLayoutHtml explodedPathname chunkParams w = (.html none, w1)) :
    (processRequestAsHtmlPage app chunkParams explodedPathname w).1 = .normal
    ∧ (processRequestAsHtmlPage app chunkParams explodedPathname w).2.response
        = HttpResponse.end_
            (app.serverResponseFormatter.setHeaders (w1.response.setStatusCode 404) "html")
            (some "Page Not Found")
    ∧ (processRequestAsHtmlPage app chunkParams explodedPathname w).2.response.statusCode = 404
    ∧ (processRequestAsHtmlPage app chunkParams explodedPathname w).2.response.ended = true
    ∧ (processRequestAsHtmlPage app chunkParams explodedPathname w).2.response.writes
        = w1.response.writes ++ [.statusCode 404,
            .setHeader "content-type" (app.serverResponseFormatter.contentType "html"),
            .setHeader "cache-control" (app.serverResponseFormatter.cacheControl "html"),
            .end_ (some "Page Not Found")]
    ∧ (w1.response.ended = false →
        (processRequestAsHtmlPage app chunkParams explodedPathname w).2.response.body
          = some "Page Not Found")
    ∧ (∀ (lookup : World → String × World) (scripts : String → World → String × World),
        processRequestAsHtmlPage
            { app with getGlobalFilesVersion := lookup, getScriptFromRepository := scripts }
            chunkParams explodedPathname w
          = processRequestAsHtmlPage app chunkParams explodedPathname w) := by
  have hmain := processRequestAsHtmlPage_of_null app chunkParams explodedPathname w w1 hr
  refine ⟨by rw [hmain], by rw [hmain]; rfl, by rw [hmain]; rfl, by rw [hmain]; rfl, ?_, ?_, ?_⟩
  · rw [hmain]
    simp [finishHtml, List.append_assoc]
  · intro he
    rw [hmain]
    simp [finishHtml, he]
  · intro lookup scripts
    rw [hmain]
    exact processRequestAsHtmlPage_of_null
      { app with getGlobalFilesVersion := lookup, getScriptFromRepository := scripts }
      chunkParams explodedPathname w w1 hr

/-- Witness for C12: a page whose rendering returns null. -/
theorem not_found_page_witness :
    (processRequestAsHtmlPage (pageApp none) (sampleChunkParams "GET" none) []
        sampleWorld).2.response.statusCode = 404
    ∧ (processRequestAsHtmlPage (pageApp none) (sampleChunkParams "GET" none) []
        sampleWorld).2.response.body = some "Page Not Found" :=
  have h := not_found_page (pageApp none) (sampleChunkParams "GET" none) []
    sampleWorld sampleWorld rfl
  ⟨h.2.2.1, h.2.2.2.2.2.1 rfl⟩

/-! ## Envelope contents -/

theorem replaceLeadingError_of_header (rest : String) :
    replaceLeadingError ("Error: " ++ rest) = rest := by
  unfold replaceLeadingError
  have hdata : ("Error: " ++ rest).data = "Error: ".data ++ rest.data := String.data_append _ _
  have hpre : "Error: ".data.isPrefixOf ("Error: " ++ rest).data = true := by
    rw [hdata, List.isPrefixOf_iff_prefix]
    exact List.prefix_append _ _
  rw [if_pos hpre, hdata]
  have hlen : "Error: ".data.length = 7 := by decide
  rw [← hlen, List.drop_left]

theorem respondWithError_last_write (fmt : ServerResponseFormatter) (r : HttpResponse)
    (error : JsError) (isThrow development : Bool) :
    (respondWithError fmt r error isThrow development).writes.getLast?
      = some (.end_ (envelopeText
          (respondWithError fmt r error isThrow development).statusCode
          error.name error.message (envelopeStack error development))) := by
  rw [respondWithError_writes, List.getLast?_append]
  rfl

/-- C16: stack-visibility policy of #respondWithError. For every error, the
envelope with which the builder ends the response has as stack the empty
string when the development flag is false; when the flag is true the stack is
the empty string for an error without a stack, the rest of the stack for a
stack that starts with the generic header Error: followed by a space, and the
stack itself when it does not start with that header. -/
theorem stack_visibility_policy (fmt : ServerResponseFormatter) (r : HttpResponse)
    (error : JsError) (isThrow development : Bool) :
    (respondWithError fmt r error isThrow development).writes.getLast?
        = some (.end_ (jsonStringify (.obj (.cons "code"
            (.num (respondWithError fmt r error isThrow development).statusCode)
            (.cons "name" (optStr error.name)
              (.cons "message" (optStr error.message)
                (.cons "stack" (.str (envelopeStack error development)) .nil)))))))
    ∧ (r.ended = false →
        (respondWithError fmt r error isThrow development).body
          = jsonStringify (.obj (.cons "code"
            (.num (respondWithError fmt r error isThrow development).statusCode)
            (.cons "name" (optStr error.name)
              (.cons "message" (optStr error.message)
                (.cons "stack" (.str (envelopeStack error development)) .nil))))))
    ∧ envelopeStack error false = ""
    ∧ (error.stack = none → envelopeStack error true = "")
    ∧ (∀ rest, error.stack = some ("Error: " ++ rest) → envelopeStack error true = rest)
    ∧ (∀ stack, error.stack = some stack → "Error: ".data.isPrefixOf stack.data = false →
        envelopeStack error true = stack) := by
  refine ⟨respondWithError_last_write fmt r error isThrow development, ?_, rfl, ?_, ?_, ?_⟩
  · intro he
    exact respondWithError_body fmt r error isThrow development he
  · intro hs
    simp only [envelopeStack, hs, if_true, Option.getD_none]
    decide
  · intro rest hs
    simp only [envelopeStack, hs, if_true, Option.getD_some]
    exact replaceLeadingError_of_header rest
  · intro stack hs hpre
    simp only [envelopeStack, hs, if_true, Option.getD_some, replaceLeadingError, hpre]
    rfl

/-- C18: the code of the envelope is the status code on the wire. For every
call of #respondWithError the envelope with which the response is ended has as
code the status code of the response at that moment; on a response whose
status was set to s (not 200) before the call the code is s, whatever isThrow
is, and in particular 500 after the assignment of the full-page catch block. -/
theorem envelope_code_matches_status (fmt : ServerResponseFormatter) (r : HttpResponse)
    (error : JsError) (isThrow development : Bool) :
    (respondWithError fmt r error isThrow development).writes.getLast?
        = some (.end_ (jsonStringify (.obj (.cons "code"
            (.num (respondWithError fmt r error isThrow development).statusCode)
            (.cons "name" (optStr error.name)
              (.cons "message" (optStr error.message)
                (.cons "stack" (.str (envelopeStack error development)) .nil)))))))
    ∧ (r.statusCode ≠ 200 →
        (respondWithError fmt r error isThrow development).statusCode = r.statusCode
        ∧ (respondWithError fmt r error isThrow development).writes.getLast?
          = some (.end_ (jsonStringify (.obj (.cons "code" (.num r.statusCode)
              (.cons "name" (optStr error.name)
                (.cons "message" (optStr error.message)
                  (.cons "stack" (.str (envelopeStack error development)) .nil))))))))
    ∧ (respondWithError fmt (r.setStatusCode 500) error isThrow development).statusCode = 500
    ∧ (respondWithError fmt (r.setStatusCode 500) error isThrow development).writes.getLast?
        = some (.end_ (jsonStringify (.obj (.cons "code" (.num 500)
            (.cons "name" (optStr error.name)
              (.cons "message" (optStr error.message)
                (.cons "stack" (.str (envelopeStack error development)) .nil))))))) := by
  have hlast := respondWithError_last_write fmt r error isThrow development
  have h500 := respondWithError_last_write fmt (r.setStatusCode 500) error isThrow development
  have hst500 : (respondWithError fmt (r.setStatusCode 500) error isThrow
      development).statusCode = 500 := by
    simp [respondWithError_statusCode]
  refine ⟨hlast, ?_, hst500, ?_⟩
  · intro hs
    have hst : (respondWithError fmt r error isThrow development).statusCode
        = r.statusCode := by
      simp [respondWithError_statusCode, hs]
    refine ⟨hst, ?_⟩
    rw [hlast, hst]
    rfl
  · rw [h500, hst500]
    rfl

/-- C19: no fault detail reaches the client in production. With the
development flag false, whatever two faults two rendering collaborators raise
from the same state, the two responses are equal: status 500, the headers for
kind json, and the envelope with code 500, name Error, message Internal Server
Error and the empty stack; the name, message and stack of the raised value
occur nowhere in the response. -/
theorem production_fault_response_uniform (app : App) (chunkParams : ChunkParams)
    (explodedPathname : List String) (w w1 : World)
    (render1 render2 : List String → ChunkParams → World → RenderResult × World)
    (fault1 fault2 : Thrown)
    (hdev : app.appConfig.development = false)
    (h1 : render1 explodedPathname chunkParams w = (.fault fault1, w1))
    (h2 : render2 explodedPathname chunkParams w = (.fault fault2, w1)) :
    (processRequestAsHtmlPage { app with makeLayoutHtml := render1 } chunkParams
        explodedPathname w).2.response
      = (processRequestAsHtmlPage { app with makeLayoutHtml := render2 } chunkParams
          explodedPathname w).2.response
    ∧ (processRequestAsHtmlPage { app with makeLayoutHtml := render1 } chunkParams
        explodedPathname w).2.response.statusCode = 500
    ∧ (processRequestAsHtmlPage { app with makeLayoutHtml := render1 } chunkParams
        explodedPathname w).2.response.writes
        = w1.response.writes ++ [.statusCode 500,
            .setHeader "content-type" (app.serverResponseFormatter.contentType "json"),
            .setHeader "cache-control" (app.serverResponseFormatter.cacheControl "json"),
            .end_ (jsonStringify (.obj (.cons "code" (.num 500)
              (.cons "name" (.str "Error")
                (.cons "message" (.str "Internal Server Error")
                  (.cons "stack" (.str "") .nil))))))]
    ∧ (processRequestAsHtmlPage { app with makeLayoutHtml := render1 } chunkParams
        explodedPathname w).2.response.headers
        = ((w1.response.headers.filter (fun h => h.1 != "content-type")
              ++ [("content-type", app.serverResponseFormatter.contentType "json")]).filter
            (fun h => h.1 != "cache-control"))
          ++ [("cache-control", app.serverResponseFormatter.cacheControl "json")]
    ∧ (w1.response.ended = false →
        (processRequestAsHtmlPage { app with makeLayoutHtml := render1 } chunkParams
          explodedPathname w).2.response.body
          = jsonStringify (.obj (.cons "code" (.num 500)
              (.cons "name" (.str "Error")
                (.cons "message" (.str "Internal Server Error")
                  (.cons "stack" (.str "") .nil)))))) := by
  have hout : ∀ (render : List String → ChunkParams → World → RenderResult × World)
      (fault : Thrown), render explodedPathname chunkParams w = (.fault fault, w1) →
      (processRequestAsHtmlPage { app with makeLayoutHtml := render } chunkParams
        explodedPathname w).2.response
        = respondWithError app.serverResponseFormatter (w1.response.setStatusCode 500)
            (newError app.stackFrames "Internal Server Error") true false := by
    intro render fault hr
    rw [processRequestAsHtmlPage_of_fault { app with makeLayoutHtml := render } chunkParams
      explodedPathname w w1 fault hr]
    simp [respondToRenderFault, hdev]
  obtain ⟨hst, hwrites, hbody⟩ := respondWithError_after_500 app.serverResponseFormatter
    w1.response (newError app.stackFrames "Internal Server Error") true false
  refine ⟨by rw [hout render1 fault1 h1, hout render2 fault2 h2], ?_, ?_, ?_, ?_⟩
  · rw [hout render1 fault1 h1]
    exact hst
  · rw [hout render1 fault1 h1]
    exact hwrites
  · rw [hout render1 fault1 h1]
    simp [respondWithError, ServerResponseFormatter.setHeaders, HttpResponse.setHeader,
      HttpResponse.setStatusCode, HttpResponse.end_]
  · intro he
    rw [hout render1 fault1 h1]
    exact hbody he

/-- Witness for C19: two different faults in production give one response. -/
theorem production_fault_response_uniform_witness :
    (processRequestAsHtmlPage (faultApp false (.value sampleFault))
        (sampleChunkParams "GET" none) [] sampleWorld).2.response
      = (processRequestAsHtmlPage (faultApp false .nullish)
          (sampleChunkParams "GET" none) [] sampleWorld).2.response
    ∧ (processRequestAsHtmlPage (faultApp false (.value sampleFault))
        (sampleChunkParams "GET" none) [] sampleWorld).2.response.body
      = some "\x7b\"code\":500,\"name\":\"Error\",\"message\":\"Internal Server Error\",\"stack\":\"\"\x7d" :=
  have h := production_fault_response_uniform (faultApp false .nullish)
    (sampleChunkParams "GET" none) [] sampleWorld sampleWorld
    (fun _ _ w => (.fault (.value sampleFault), w)) (fun _ _ w => (.fault .nullish, w))
    (.value sampleFault) .nullish rfl rfl rfl
  ⟨h.1, (h.2.2.2.2 rfl).trans (by decide)⟩

/-! ## Document synthesis -/

theorem stringifier_eq (assets : AssetMap) :
    stringifier assets = String.join (distinctInOrder (tagsOf assets)) := by
  unfold stringifier
  rw [tagSet_eq]
  rfl

theorem processRequestAsHtmlPage_of_markup (app : App) (chunkParams : ChunkParams)
    (explodedPathname : List String) (w w1 w2 w3 w4 : World)
    (markup version script1 script2 : String)
    (hr : app.makeLayoutHtml explodedPathname chunkParams w = (.html (some markup), w1))
    (hg : app.getGlobalFilesVersion w1 = (version, w2))
    (he : w2.response.ended = false)
    (h1 : app.getScriptFromRepository "browserSupportCheck.js" w2 = (script1, w3))
    (h2 : app.getScriptFromRepository "routesFetcher.js" w3 = (script2, w4)) :
    processRequestAsHtmlPage app chunkParams explodedPathname w
      = (.normal, finishHtml app
          (assembleDocument (app.wordsLocale chunkParams.request)
            ("//" ++ chunkParams.request.host ++ "/" ++ version ++ "/") []
            (stringifier w2.componentsAssets.styles) script1 script2 markup
            (stringifier w2.componentsAssets.scripts))
          (if app.appConfig.earlyHints && w4.response.isHttp2 then
            { w4 with response := sendEarlyHints w4.response version w4.componentsAssets }
          else w4)) := by
  unfold processRequestAsHtmlPage
  simp only [hr, hg, isResponseEnded, he, Bool.false_eq_true, if_false, h1, h2,
    stringifyComponentsAssets]

theorem writes_finishHtml (app : App) (html : String) (w : World) :
    (finishHtml app html w).response.writes
      = w.response.writes
        ++ [.setHeader "content-type" (app.serverResponseFormatter.contentType "html"),
            .setHeader "cache-control" (app.serverResponseFormatter.cacheControl "html"),
            .end_ (some html)] := by
  simp [finishHtml, List.append_assoc]

/-- C17: document synthesis. When the rendering collaborator returns markup
and the response is not ended after the asset-version lookup, the core ends
the response with the document made of, in this order: the doctype, the html
element with lang set to the resolved locale or en when none is resolved, the
head with the base element whose href is built from the request host and the
asset-version token, the charset meta, the head-tag declarations (none are
declared), the stringified style tags and the two bootstrap scripts
(capability check first, route fetcher second), then the body with the
rendered markup followed by the stringified script tags, and the closing tags.
The style tags occur only in the head and the script tags only after the
markup. -/
theorem document_synthesis (app : App) (chunkParams : ChunkParams)
    (explodedPathname : List String) (w w1 w2 w3 w4 : World)
    (markup version script1 script2 : String)
    (hr : app.makeLayoutHtml explodedPathname chunkParams w = (.html (some markup), w1))
    (hg : app.getGlobalFilesVersion w1 = (version, w2))
    (he : w2.response.ended = false)
    (h1 : app.getScriptFromRepository "browserSupportCheck.js" w2 = (script1, w3))
    (h2 : app.getScriptFromRepository "routesFetcher.js" w3 = (script2, w4)) :
    (processRequestAsHtmlPage app chunkParams explodedPathname w).2.response.writes.getLast?
        = some (.end_ (some
          ("<!DOCTYPE html>\n<html lang=\"" ++ (app.wordsLocale chunkParams.request).getD "en"
              ++ "\">\n"
            ++ "<head>\n"
            ++ ("  <base href=\""
                ++ ("//" ++ chunkParams.request.host ++ "/" ++ version ++ "/") ++ "\">\n")
            ++ "  <meta charset=\"utf-8\">\n"
            ++ objectToHtmlTags [] "  "
            ++ (String.join (distinctInOrder (tagsOf w2.componentsAssets.styles)) ++ "\n")
            ++ ("  <script>\n" ++ script1 ++ "\n  </script>\n")
            ++ ("  <script>\n" ++ script2 ++ "\n  </script>\n")
            ++ "</head>\n<body>"
            ++ (markup ++ "\n")
            ++ (String.join (distinctInOrder (tagsOf w2.componentsAssets.scripts)) ++ "\n")
            ++ "</body>\n</html>")))
    ∧ (w4.response.ended = false →
        (processRequestAsHtmlPage app chunkParams explodedPathname w).2.response.body
          = some
          ("<!DOCTYPE html>\n<html lang=\"" ++ (app.wordsLocale chunkParams.request).getD "en"
              ++ "\">\n"
            ++ "<head>\n"
            ++ ("  <base href=\""
                ++ ("//" ++ chunkParams.request.host ++ "/" ++ version ++ "/") ++ "\">\n")
            ++ "  <meta charset=\"utf-8\">\n"
            ++ objectToHtmlTags [] "  "
            ++ (String.join (distinctInOrder (tagsOf w2.componentsAssets.styles)) ++ "\n")
            ++ ("  <script>\n" ++ script1 ++ "\n  </script>\n")
            ++ ("  <script>\n" ++ script2 ++ "\n  </script>\n")
            ++ "</head>\n<body>"
            ++ (markup ++ "\n")
            ++ (String.join (distinctInOrder (tagsOf w2.componentsAssets.scripts)) ++ "\n")
            ++ "</body>\n</html>"))
    ∧ objectToHtmlTags [] "  " = ""
    ∧ (processRequestAsHtmlPage app chunkParams explodedPathname w).2.response.ended = true := by
  have hmain := processRequestAsHtmlPage_of_markup app chunkParams explodedPathname
    w w1 w2 w3 w4 markup version script1 script2 hr hg he h1 h2
  rw [hmain, stringifier_eq, stringifier_eq]
  refine ⟨?_, ?_, rfl, rfl⟩
  · rw [writes_finishHtml, List.getLast?_append]
    rfl
  · intro he4
    by_cases hh : (app.appConfig.earlyHints && w4.response.isHttp2) = true
    · simp [finishHtml, hh, sendEarlyHints, HttpResponse.writeEarlyHints, he4, assembleDocument]
    · simp [finishHtml, hh, he4, assembleDocument]

set_option maxRecDepth 20000 in
/-- Witness for C17: a page with two style assets sharing one tag and one
script asset; no locale is resolved, the host is example.com and the version
token is v1. -/
theorem document_synthesis_witness :
    (processRequestAsHtmlPage assetsPageApp (sampleChunkParams "GET" none) []
        sampleWorld).2.response.body
      = some ("<!DOCTYPE html>\n<html lang=\"en\">\n<head>\n"
          ++ "  <base href=\"//example.com/v1/\">\n"
          ++ "  <meta charset=\"utf-8\">\n"
          ++ "<link href=a.css>\n"
          ++ "  <script>\n/* browserSupportCheck.js */\n  </script>\n"
          ++ "  <script>\n/* routesFetcher.js */\n  </script>\n"
          ++ "</head>\n<body><p>Hi</p>\n"
          ++ "<script src=a.js>\n"
          ++ "</body>\n</html>") :=
  have h := (document_synthesis assetsPageApp (sampleChunkParams "GET" none) []
    sampleWorld { sampleWorld with componentsAssets := assetsWithRepeatedUrl }
    { sampleWorld with componentsAssets := assetsWithRepeatedUrl }
    { sampleWorld with componentsAssets := assetsWithRepeatedUrl }
    { sampleWorld with componentsAssets := assetsWithRepeatedUrl }
    "<p>Hi</p>" "v1" "/* browserSupportCheck.js */" "/* routesFetcher.js */"
    rfl rfl rfl rfl rfl).2.1 rfl
  h.trans (by decide)

/-! ## The writes of the core -/

theorem respondWithError_profile (fmt : ServerResponseFormatter) (r : HttpResponse)
    (error : JsError) (isThrow development : Bool) :
    ∃ core, (respondWithError fmt r error isThrow development).writes = r.writes ++ core
      ∧ statusAssignments core ≤ 1
      ∧ (r.statusCode ≠ 200 → statusAssignments core = 0)
      ∧ (∀ v, Write.setHeader "x-response-type" v ∈ core → v = "error")
      ∧ endCalls core = 1 := by
  have hw := respondWithError_writes fmt r error isThrow development
  rw [respondWithError_statusCode] at hw
  simp only [List.append_assoc] at hw
  refine ⟨_, hw, ?_⟩
  by_cases hs : r.statusCode = 200
  · cases isThrow <;> simp [statusAssignments, endCalls, hs]
  · simp [statusAssignments, endCalls, hs]

theorem processRequestAsXhr_profile (app : App) (chunkParams : ChunkParams)
    (explodedPathname : List String) (w : World) :
    ∃ core,
      (processRequestAsXhr app chunkParams explodedPathname w).response.writes
        = (lastResumeXhr app chunkParams explodedPathname w).response.writes ++ core
      ∧ statusAssignments core ≤ 1
      ∧ ((lastResumeXhr app chunkParams explodedPathname w).response.statusCode ≠ 200 →
          statusAssignments core = 0)
      ∧ (∀ v, Write.setHeader "x-response-type" v ∈ core →
          v = "string" ∨ v = "json" ∨ v = "error")
      ∧ endCalls core ≤ 1
      ∧ ((lastResumeXhr app chunkParams explodedPathname w).response.ended = false →
          endCalls core = 1
          ∧ (processRequestAsXhr app chunkParams explodedPathname w).response.ended = true) := by
  by_cases hv : ajaxVersionMismatch app chunkParams.request = true
  · obtain ⟨core, h1, h2, h3, h4, h5⟩ := respondWithError_profile app.serverResponseFormatter
      w.response (newError app.stackFrames app.appConfig.wrongVersionMessage) true
      app.appConfig.development
    refine ⟨core, ?_, h2, ?_, ?_, by omega, ?_⟩
    · rw [processRequestAsXhr_of_mismatch app chunkParams explodedPathname w hv]
      simp only [lastResumeXhr, hv, if_true]
      exact h1
    · simp only [lastResumeXhr, hv, if_true]
      exact h3
    · intro v hm
      exact Or.inr (Or.inr (h4 v hm))
    · intro _
      refine ⟨h5, ?_⟩
      rw [processRequestAsXhr_of_mismatch app chunkParams explodedPathname w hv]
      rfl
  · have hv2 : ajaxVersionMismatch app chunkParams.request = false := by simpa using hv
    rcases hp : app.process explodedPathname explodedPathname chunkParams w with ⟨value, w1⟩
    have hres : lastResumeXhr app chunkParams explodedPathname w = w1 := by
      simp [lastResumeXhr, hv2, hp]
    rw [hres]
    by_cases he : w1.response.ended = true
    · refine ⟨[], ?_, by simp [statusAssignments], by simp [statusAssignments], by simp,
        by simp [endCalls], ?_⟩
      · rw [ended_after_process_no_write app chunkParams explodedPathname w w1 value hv2 hp he]
        simp
      · intro hne
        rw [he] at hne
        exact absurd hne (by decide)
    · have he2 : w1.response.ended = false := by simpa using he
      rw [processRequestAsXhr_of_process app chunkParams explodedPathname w w1 value hv2 hp he2]
      cases value with
      | error e =>
        obtain ⟨core, h1, h2, h3, h4, h5⟩ := respondWithError_profile
          app.serverResponseFormatter w1.response e e.isThrow.truthy app.appConfig.development
        refine ⟨core, h1, h2, h3, ?_, by omega, fun _ => ⟨h5, rfl⟩⟩
        intro v hm
        exact Or.inr (Or.inr (h4 v hm))
      | boxedString s =>
        have hw : (respondWithValue app (.boxedString s) w1).response.writes
            = w1.response.writes
              ++ [.setHeader "content-type" (app.serverResponseFormatter.contentType "txt"),
                  .setHeader "cache-control" (app.serverResponseFormatter.cacheControl "txt"),
                  .setHeader "x-response-type" "string", .end_ (some s)] := by
          simp [respondWithValue, List.append_assoc]
        refine ⟨_, hw, ?_⟩
        simp [statusAssignments, endCalls, respondWithValue]
      | string s =>
        have hw : (respondWithValue app (.string s) w1).response.writes
            = w1.response.writes
              ++ [.setHeader "content-type" (app.serverResponseFormatter.contentType "txt"),
                  .setHeader "cache-control" (app.serverResponseFormatter.cacheControl "txt"),
                  .setHeader "x-response-type" "string", .end_ (some s)] := by
          simp [respondWithValue, List.append_assoc]
        refine ⟨_, hw, ?_⟩
        simp [statusAssignments, endCalls, respondWithValue]
      | other v =>
        have hw : (respondWithValue app (.other v) w1).response.writes
            = w1.response.writes
              ++ [.setHeader "content-type" (app.serverResponseFormatter.contentType "json"),
                  .setHeader "cache-control" (app.serverResponseFormatter.cacheControl "json"),
                  .setHeader "x-response-type" "json", .end_ v.json] := by
          simp [respondWithValue, List.append_assoc]
        refine ⟨_, hw, ?_⟩
        simp [statusAssignments, endCalls, respondWithValue]

theorem processRequestAsHtmlPage_profile (app : App) (chunkParams : ChunkParams)
    (explodedPathname : List String) (w : World) :
    ∃ core,
      (processRequestAsHtmlPage app chunkParams explodedPathname w).2.response.writes
        = (lastResumeHtml app chunkParams explodedPathname w).response.writes ++ core
      ∧ statusAssignments core ≤ 1
      ∧ (∀ v, Write.setHeader "x-response-type" v ∉ core)
      ∧ endCalls core ≤ 1
      ∧ ((lastResumeHtml app chunkParams explodedPathname w).response.ended = false →
          (processRequestAsHtmlPage app chunkParams explodedPathname w).1 = .normal →
          endCalls core = 1
          ∧ (processRequestAsHtmlPage app chunkParams explodedPathname w).2.response.ended
              = true)
      ∧ ((processRequestAsHtmlPage app chunkParams explodedPathname w).1 = .normal
          ∨ (app.appConfig.development = true
              ∧ ∃ error, (app.makeLayoutHtml explodedPathname chunkParams w).1 = .fault error
                  ∧ error.breaksBuilder = true))
      ∧ (∀ error, (app.makeLayoutHtml explodedPathname chunkParams w).1 = .fault error →
          core.head? = some (.statusCode 500))
      ∧ ((app.makeLayoutHtml explodedPathname chunkParams w).1 = .html none →
          core.head? = some (.statusCode 404))
      ∧ (∀ markup,
          (app.makeLayoutHtml explodedPathname chunkParams w).1 = .html (some markup) →
          statusAssignments core = 0) := by
  rcases hr : app.makeLayoutHtml explodedPathname chunkParams w with ⟨rendered, w1⟩
  cases rendered with
  | fault error =>
    have hres : lastResumeHtml app chunkParams explodedPathname w = w1 := by
      simp [lastResumeHtml, hr]
    rw [hres, processRequestAsHtmlPage_of_fault app chunkParams explodedPathname w w1 error hr]
    by_cases hdev : app.appConfig.development = true
    · cases error with
      | nullish =>
        have hw : (respondToRenderFault app .nullish w1).2.response.writes
            = w1.response.writes ++ [.statusCode 500] := by
          simp [respondToRenderFault, hdev]
        refine ⟨_, hw, ?_⟩
        simp [statusAssignments, endCalls, respondToRenderFault, hdev, Thrown.breaksBuilder]
      | unusableStack =>
        have hw : (respondToRenderFault app .unusableStack w1).2.response.writes
            = w1.response.writes ++ [.statusCode 500] := by
          simp [respondToRenderFault, hdev]
        refine ⟨_, hw, ?_⟩
        simp [statusAssignments, endCalls, respondToRenderFault, hdev, Thrown.breaksBuilder]
      | value e =>
        obtain ⟨_, h2, _⟩ := respondWithError_after_500 app.serverResponseFormatter
          w1.response e true true
        have hw : (respondToRenderFault app (.value e) w1).2.response.writes
            = w1.response.writes ++ [.statusCode 500,
                .setHeader "content-type" (app.serverResponseFormatter.contentType "json"),
                .setHeader "cache-control" (app.serverResponseFormatter.cacheControl "json"),
                .end_ (jsonStringify (errorEnvelope 500 e (envelopeStack e true)))] := by
          simp only [respondToRenderFault, hdev, if_true]
          exact h2
        refine ⟨_, hw, ?_⟩
        simp [statusAssignments, endCalls, respondToRenderFault, hdev, respondWithError_ended]
      | object o =>
        obtain ⟨_, h2, h3, _, _⟩ := respondWithErrorOnObject_after_500
          app.serverResponseFormatter w1.response o true true
        have hw : (respondToRenderFault app (.object o) w1).2.response.writes
            = w1.response.writes ++ [.statusCode 500,
                .setHeader "content-type" (app.serverResponseFormatter.contentType "json"),
                .setHeader "cache-control" (app.serverResponseFormatter.cacheControl "json"),
                .end_ (envelopeJson 500 o.name o.message
                  (if true = true then replaceLeadingError (o.stack.getD "") else ""))] := by
          simp only [respondToRenderFault, hdev, if_true]
          exact h3
        refine ⟨_, hw, ?_⟩
        simp [statusAssignments, endCalls, respondToRenderFault, hdev, h2]
    · have hdev2 : app.appConfig.development = false := by simpa using hdev
      obtain ⟨_, h2, _⟩ := respondWithError_after_500 app.serverResponseFormatter
        w1.response (newError app.stackFrames "Internal Server Error") true false
      have hw : (respondToRenderFault app error w1).2.response.writes
          = w1.response.writes ++ [.statusCode 500,
              .setHeader "content-type" (app.serverResponseFormatter.contentType "json"),
              .setHeader "cache-control" (app.serverResponseFormatter.cacheControl "json"),
              .end_ (jsonStringify (errorEnvelope 500
                (newError app.stackFrames "Internal Server Error")
                (envelopeStack (newError app.stackFrames "Internal Server Error") false)))] := by
        simp only [respondToRenderFault, hdev2, Bool.false_eq_true, if_false]
        exact h2
      refine ⟨_, hw, ?_⟩
      simp [statusAssignments, endCalls, respondToRenderFault, hdev2, respondWithError_ended]
  | html markup =>
    cases markup with
    | none =>
      have hres : lastResumeHtml app chunkParams explodedPathname w = w1 := by
        simp [lastResumeHtml, hr]
      rw [hres, processRequestAsHtmlPage_of_null app chunkParams explodedPathname w w1 hr]
      have hw : (finishHtml app "Page Not Found"
          { w1 with response := w1.response.setStatusCode 404 }).response.writes
          = w1.response.writes ++ [.statusCode 404,
              .setHeader "content-type" (app.serverResponseFormatter.contentType "html"),
              .setHeader "cache-control" (app.serverResponseFormatter.cacheControl "html"),
              .end_ (some "Page Not Found")] := by
        simp [finishHtml, List.append_assoc]
      refine ⟨_, hw, ?_⟩
      simp [statusAssignments, endCalls, finishHtml]
    | some markup =>
      rcases hg : app.getGlobalFilesVersion w1 with ⟨version, w2⟩
      by_cases he : w2.response.ended = true
      · have hres : lastResumeHtml app chunkParams explodedPathname w = w2 := by
          simp [lastResumeHtml, hr, hg, isResponseEnded, he]
        rw [hres, ended_after_version_lookup_no_write app chunkParams explodedPathname
          w w1 w2 markup version hr hg he]
        refine ⟨[], by simp, ?_⟩
        simp [statusAssignments, endCalls, he]
      · have he2 : w2.response.ended = false := by simpa using he
        rcases h1 : app.getScriptFromRepository "browserSupportCheck.js" w2 with ⟨script1, w3⟩
        rcases h2 : app.getScriptFromRepository "routesFetcher.js" w3 with ⟨script2, w4⟩
        have hres : lastResumeHtml app chunkParams explodedPathname w = w4 := by
          simp [lastResumeHtml, hr, hg, isResponseEnded, he2, h1, h2]
        rw [hres, processRequestAsHtmlPage_of_markup app chunkParams explodedPathname
          w w1 w2 w3 w4 markup version script1 script2 hr hg he2 h1 h2]
        by_cases hh : (app.appConfig.earlyHints && w4.response.isHttp2) = true
        · rw [if_pos hh]
          have hw : ∀ doc : String,
              (finishHtml app doc
                { w4 with
                  response := sendEarlyHints w4.response version
                    w4.componentsAssets }).response.writes
              = w4.response.writes
                ++ [.writeEarlyHints (earlyHintLinks version w4.componentsAssets),
                    .setHeader "link"
                      (String.intercalate ", " (earlyHintLinks version w4.componentsAssets)),
                    .setHeader "content-type" (app.serverResponseFormatter.contentType "html"),
                    .setHeader "cache-control"
                      (app.serverResponseFormatter.cacheControl "html"),
                    .end_ (some doc)] := by
            intro doc
            rw [writes_finishHtml]
            simp [sendEarlyHints, List.append_assoc]
          refine ⟨_, hw _, ?_⟩
          simp [statusAssignments, endCalls, finishHtml]
        · rw [if_neg hh]
          refine ⟨_, writes_finishHtml app _ w4, ?_⟩
          simp [statusAssignments, endCalls, finishHtml]

theorem coreWrites_eq (app : App) (request : HttpRequest) (response : HttpResponse)
    (explodedPathname : List String) (core : List Write)
    (h : (parseRequest app request response explodedPathname).2.response.writes
      = (lastResume app request response explodedPathname).response.writes ++ core) :
    coreWrites app request response explodedPathname = core := by
  unfold coreWrites
  rw [h, List.drop_left]

theorem parseRequest_profile (app : App) (request : HttpRequest) (response : HttpResponse)
    (explodedPathname : List String) :
    (parseRequest app request response explodedPathname).2.response.writes
      = (lastResume app request response explodedPathname).response.writes
        ++ coreWrites app request response explodedPathname
    ∧ statusAssignments (coreWrites app request response explodedPathname) ≤ 1
    ∧ (selectsFullPage app request = false →
        (lastResume app request response explodedPathname).response.statusCode ≠ 200 →
        statusAssignments (coreWrites app request response explodedPathname) = 0)
    ∧ (∀ v, Write.setHeader "x-response-type" v
          ∈ coreWrites app request response explodedPathname →
        selectsFullPage app request = false ∧ (v = "string" ∨ v = "json" ∨ v = "error"))
    ∧ endCalls (coreWrites app request response explodedPathname) ≤ 1
    ∧ ((lastResume app request response explodedPathname).response.ended = false →
        (parseRequest app request response explodedPathname).1 = .normal →
        endCalls (coreWrites app request response explodedPathname) = 1
        ∧ (parseRequest app request response explodedPathname).2.response.ended = true)
    ∧ ((parseRequest app request response explodedPathname).1 = .normal
        ∨ (selectsFullPage app request = true ∧ app.appConfig.development = true
            ∧ ∃ error,
                (app.makeLayoutHtml explodedPathname (dispatchChunkParams app request response)
                  (dispatchWorld app request response)).1 = .fault error
                ∧ error.breaksBuilder = true))
    ∧ (selectsFullPage app request = true →
        (∀ error,
          (app.makeLayoutHtml explodedPathname (dispatchChunkParams app request response)
            (dispatchWorld app request response)).1 = .fault error →
          (coreWrites app request response explodedPathname).head? = some (.statusCode 500))
        ∧ ((app.makeLayoutHtml explodedPathname (dispatchChunkParams app request response)
            (dispatchWorld app request response)).1 = .html none →
          (coreWrites app request response explodedPathname).head? = some (.statusCode 404))
        ∧ (∀ markup,
          (app.makeLayoutHtml explodedPathname (dispatchChunkParams app request response)
            (dispatchWorld app request response)).1 = .html (some markup) →
          statusAssignments (coreWrites app request response explodedPathname) = 0)) := by
  by_cases hs : selectsFullPage app request = true
  · obtain ⟨core, h1, h2, h3, h4, h5, h6, h7, h8, h9⟩ := processRequestAsHtmlPage_profile app
      (dispatchChunkParams app request response) explodedPathname
      (dispatchWorld app request response)
    have hp : parseRequest app request response explodedPathname
        = processRequestAsHtmlPage app (dispatchChunkParams app request response)
            explodedPathname (dispatchWorld app request response) := by
      rw [parseRequest_eq, if_pos hs]
    have hl : lastResume app request response explodedPathname
        = lastResumeHtml app (dispatchChunkParams app request response) explodedPathname
            (dispatchWorld app request response) := by
      unfold lastResume
      rw [if_pos hs]
    have hc : coreWrites app request response explodedPathname = core := by
      apply coreWrites_eq
      rw [hp, hl]
      exact h1
    rw [hc, hp, hl]
    refine ⟨h1, h2, ?_, ?_, h4, h5, ?_, ?_⟩
    · intro hf
      rw [hs] at hf
      exact absurd hf (by decide)
    · intro v hm
      exact absurd hm (h3 v)
    · rcases h6 with h6 | h6
      · exact Or.inl h6
      · exact Or.inr ⟨hs, h6⟩
    · intro _
      exact ⟨h7, h8, h9⟩
  · have hs2 : selectsFullPage app request = false := by simpa using hs
    obtain ⟨core, h1, h2, h3, h4, h5, h6⟩ := processRequestAsXhr_profile app
      (dispatchChunkParams app request response) explodedPathname
      (dispatchWorld app request response)
    have hp : parseRequest app request response explodedPathname
        = (.normal, processRequestAsXhr app (dispatchChunkParams app request response)
            explodedPathname (dispatchWorld app request response)) := by
      rw [parseRequest_eq, if_neg hs]
    have hl : lastResume app request response explodedPathname
        = lastResumeXhr app (dispatchChunkParams app request response) explodedPathname
            (dispatchWorld app request response) := by
      unfold lastResume
      rw [if_neg hs]
    have hc : coreWrites app request response explodedPathname = core := by
      apply coreWrites_eq
      rw [hp, hl]
      exact h1
    rw [hc, hp, hl]
    refine ⟨h1, h2, fun _ => h3, ?_, h5, fun hne _ => h6 hne, Or.inl rfl, ?_⟩
    · intro v hm
      exact ⟨hs2, h4 v hm⟩
    · intro hf
      exact absurd hf hs

/-- Unless the catch block of the full-page path itself fails (in development,
a raised null or undefined, or a raised value whose stack has no replace
method), parseRequest completes normally; and when it
completes normally on a response that was not ended when control last resumed,
the response is ended and the core has called end exactly once. -/
theorem parseRequest_ends_once (app : App) (request : HttpRequest)
    (response : HttpResponse) (explodedPathname : List String) :
    ((parseRequest app request response explodedPathname).1 = .normal
        ∨ (selectsFullPage app request = true ∧ app.appConfig.development = true
            ∧ ∃ error,
                (app.makeLayoutHtml explodedPathname (dispatchChunkParams app request response)
                  (dispatchWorld app request response)).1 = .fault error
                ∧ error.breaksBuilder = true))
    ∧ ((lastResume app request response explodedPathname).response.ended = false →
        (parseRequest app request response explodedPathname).1 = .normal →
        endCalls (coreWrites app request response explodedPathname) = 1
        ∧ (parseRequest app request response explodedPathname).2.response.ended = true) := by
  obtain ⟨_, _, _, _, _, h6, h7, _⟩ := parseRequest_profile app request response
    explodedPathname
  exact ⟨h7, h6⟩

theorem getHeader_finishHtml (app : App) (html : String) (w : World) :
    (finishHtml app html w).response.getHeader "x-response-type"
      = w.response.getHeader "x-response-type" := by
  unfold finishHtml
  rw [getHeader_end]
  exact getHeader_setHeaders _ _ _ _ (by decide) (by decide)

theorem getHeader_sendEarlyHints (r : HttpResponse) (ver : String) (ca : ComponentsAssets) :
    (sendEarlyHints r ver ca).getHeader "x-response-type" = r.getHeader "x-response-type" := by
  unfold sendEarlyHints
  rw [getHeader_setHeader_other _ _ _ _ (by decide)]
  rfl

theorem getHeader_respondWithError_500 (fmt : ServerResponseFormatter) (r : HttpResponse)
    (error : JsError) (isThrow development : Bool) :
    (respondWithError fmt (r.setStatusCode 500) error isThrow development).getHeader
        "x-response-type"
      = r.getHeader "x-response-type" := by
  rw [respondWithError_responseType, (respondWithError_after_500 fmt r error isThrow
    development).1]
  simp

theorem processRequestAsHtmlPage_responseType (app : App) (chunkParams : ChunkParams)
    (explodedPathname : List String) (w : World) :
    (processRequestAsHtmlPage app chunkParams explodedPathname w).2.response.getHeader
        "x-response-type"
      = (lastResumeHtml app chunkParams explodedPathname w).response.getHeader
          "x-response-type" := by
  rcases hr : app.makeLayoutHtml explodedPathname chunkParams w with ⟨rendered, w1⟩
  cases rendered with
  | fault error =>
    have hres : lastResumeHtml app chunkParams explodedPathname w = w1 := by
      simp [lastResumeHtml, hr]
    rw [hres, processRequestAsHtmlPage_of_fault app chunkParams explodedPathname w w1 error hr]
    by_cases hdev : app.appConfig.development = true
    · cases error with
      | nullish => simp [respondToRenderFault, hdev]
      | unusableStack => simp [respondToRenderFault, hdev]
      | object o =>
        simp only [respondToRenderFault, hdev, if_true]
        exact (respondWithErrorOnObject_after_500 _ _ _ _ _).2.2.2.2
      | value e =>
        simp only [respondToRenderFault, hdev, if_true]
        exact getHeader_respondWithError_500 _ _ _ _ _
    · have hdev2 : app.appConfig.development = false := by simpa using hdev
      simp only [respondToRenderFault, hdev2, Bool.false_eq_true, if_false]
      exact getHeader_respondWithError_500 _ _ _ _ _
  | html markup =>
    cases markup with
    | none =>
      have hres : lastResumeHtml app chunkParams explodedPathname w = w1 := by
        simp [lastResumeHtml, hr]
      rw [hres, processRequestAsHtmlPage_of_null app chunkParams explodedPathname w w1 hr]
      show (finishHtml app "Page Not Found" _).response.getHeader "x-response-type" = _
      rw [getHeader_finishHtml]
      rfl
    | some markup =>
      rcases hg : app.getGlobalFilesVersion w1 with ⟨version, w2⟩
      by_cases he : w2.response.ended = true
      · have hres : lastResumeHtml app chunkParams explodedPathname w = w2 := by
          simp [lastResumeHtml, hr, hg, isResponseEnded, he]
        rw [hres, ended_after_version_lookup_no_write app chunkParams explodedPathname
          w w1 w2 markup version hr hg he]
      · have he2 : w2.response.ended = false := by simpa using he
        rcases h1 : app.getScriptFromRepository "browserSupportCheck.js" w2 with ⟨script1, w3⟩
        rcases h2 : app.getScriptFromRepository "routesFetcher.js" w3 with ⟨script2, w4⟩
        have hres : lastResumeHtml app chunkParams explodedPathname w = w4 := by
          simp [lastResumeHtml, hr, hg, isResponseEnded, he2, h1, h2]
        rw [hres, processRequestAsHtmlPage_of_markup app chunkParams explodedPathname
          w w1 w2 w3 w4 markup version script1 script2 hr hg he2 h1 h2]
        show (finishHtml app _ _).response.getHeader "x-response-type" = _
        rw [getHeader_finishHtml]
        by_cases hh : (app.appConfig.earlyHints && w4.response.isHttp2) = true
        · rw [if_pos hh]
          exact getHeader_sendEarlyHints _ _ _
        · rw [if_neg hh]

/-! ## Status code, terminal write and response-type header -/

/-- C13 as stated fails on the full-page path: a rendering collaborator that
sets status 403 and then raises has customized the status, and the core still
assigns 500 afterwards; in the same way the core assigns 404 after a
collaborator that set 302 and returned null. -/
theorem status_overwritten_counterexample :
    ((lastResume forbiddenFaultApp (sampleRequest "GET" none) (HttpResponse.fresh true)
          []).response.statusCode = 403
      ∧ (coreWrites forbiddenFaultApp (sampleRequest "GET" none) (HttpResponse.fresh true)
          []).head? = some (.statusCode 500)
      ∧ (parseRequest forbiddenFaultApp (sampleRequest "GET" none) (HttpResponse.fresh true)
          []).2.response.statusCode = 500)
    ∧ ((lastResume redirectApp (sampleRequest "GET" none) (HttpResponse.fresh true)
          []).response.statusCode = 302
      ∧ (coreWrites redirectApp (sampleRequest "GET" none) (HttpResponse.fresh true)
          []).head? = some (.statusCode 404)
      ∧ (parseRequest redirectApp (sampleRequest "GET" none) (HttpResponse.fresh true)
          []).2.response.statusCode = 404) := by
  decide

/-- C13, amended: in every run of parseRequest the writes of the core all
come after control last returned from a collaborator, and among them there is
at most one status-code assignment. On the data path there is none when the
status differs from 200 at that moment, and the Error Envelope Builder never
assigns a status code to a response whose status is not 200. On the full-page
path the first write of the core is the assignment of 500 when rendering
raises and of 404 when it returns null, whatever the status was, and there is
no status-code assignment when rendering returns markup. -/
theorem status_assignment_policy (app : App) (request : HttpRequest)
    (response : HttpResponse) (explodedPathname : List String) :
    (parseRequest app request response explodedPathname).2.response.writes
      = (lastResume app request response explodedPathname).response.writes
        ++ coreWrites app request response explodedPathname
    ∧ statusAssignments (coreWrites app request response explodedPathname) ≤ 1
    ∧ (selectsFullPage app request = false →
        (lastResume app request response explodedPathname).response.statusCode ≠ 200 →
        statusAssignments (coreWrites app request response explodedPathname) = 0)
    ∧ (∀ (fmt : ServerResponseFormatter) (r : HttpResponse) (error : JsError)
        (isThrow development : Bool), r.statusCode ≠ 200 →
        statusAssignments
            ((respondWithError fmt r error isThrow development).writes.drop r.writes.length)
          = 0
        ∧ (respondWithError fmt r error isThrow development).statusCode = r.statusCode)
    ∧ (selectsFullPage app request = true →
        (∀ error,
          (app.makeLayoutHtml explodedPathname (dispatchChunkParams app request response)
            (dispatchWorld app request response)).1 = .fault error →
          (coreWrites app request response explodedPathname).head? = some (.statusCode 500))
        ∧ ((app.makeLayoutHtml explodedPathname (dispatchChunkParams app request response)
            (dispatchWorld app request response)).1 = .html none →
          (coreWrites app request response explodedPathname).head? = some (.statusCode 404))
        ∧ (∀ markup,
          (app.makeLayoutHtml explodedPathname (dispatchChunkParams app request response)
            (dispatchWorld app request response)).1 = .html (some markup) →
          statusAssignments (coreWrites app request response explodedPathname) = 0)) := by
  obtain ⟨h1, h2, h3, _, _, _, _, h8⟩ := parseRequest_profile app request response
    explodedPathname
  refine ⟨h1, h2, h3, ?_, h8⟩
  intro fmt r error isThrow development hs
  obtain ⟨core, hw, _, hzero, _, _⟩ := respondWithError_profile fmt r error isThrow development
  constructor
  · rw [hw, List.drop_left]
    exact hzero hs
  · simp [respondWithError_statusCode, hs]

/-- C14, the failing input: in development the rendering collaborator raises
null (for instance a promise rejected without a reason) on a GET request that
accepts HTML, without ending the response. The catch block assigns status 500
and hands the raised value to the builder, which reads its stack: a TypeError
escapes parseRequest, the response is never ended and end is never called. -/
theorem nullish_fault_escapes_in_development :
    selectsFullPage (faultApp true .nullish) (sampleRequest "GET" none) = true
    ∧ (lastResume (faultApp true .nullish) (sampleRequest "GET" none)
        (HttpResponse.fresh true) []).response.ended = false
    ∧ (parseRequest (faultApp true .nullish) (sampleRequest "GET" none)
        (HttpResponse.fresh true) []).1 = .throw (typeErrorOnNullish "\n    at sample")
    ∧ (parseRequest (faultApp true .nullish) (sampleRequest "GET" none)
        (HttpResponse.fresh true) []).2.response.ended = false
    ∧ (parseRequest (faultApp true .nullish) (sampleRequest "GET" none)
        (HttpResponse.fresh true) []).2.response.writes = [.statusCode 500]
    ∧ endCalls (coreWrites (faultApp true .nullish) (sampleRequest "GET" none)
        (HttpResponse.fresh true) []) = 0 :=
  ⟨by decide, by decide, rfl, by decide, by decide, by decide⟩

/-- C15: scope of the response-type header. In every run of parseRequest,
every value to which the core sets x-response-type is one of string, json and
error, and the core sets that header only on the data path: on the full-page
path, whatever the rendering collaborator does (markup, null, or a fault
converted by the Error Envelope Builder after the assignment of status 500),
no write of the core sets x-response-type. -/
theorem response_type_header_scope (app : App) (request : HttpRequest)
    (response : HttpResponse) (explodedPathname : List String) :
    (parseRequest app request response explodedPathname).2.response.writes
      = (lastResume app request response explodedPathname).response.writes
        ++ coreWrites app request response explodedPathname
    ∧ (∀ v, Write.setHeader "x-response-type" v
          ∈ coreWrites app request response explodedPathname →
        v = "string" ∨ v = "json" ∨ v = "error")
    ∧ (selectsFullPage app request = true →
        ∀ v, Write.setHeader "x-response-type" v
          ∉ coreWrites app request response explodedPathname)
    ∧ (selectsFullPage app request = true →
        (parseRequest app request response explodedPathname).2.response.getHeader
            "x-response-type"
          = (lastResume app request response explodedPathname).response.getHeader
              "x-response-type") := by
  obtain ⟨h1, _, _, h4, _⟩ := parseRequest_profile app request response explodedPathname
  refine ⟨h1, fun v hm => (h4 v hm).2, ?_, ?_⟩
  · intro hs v hm
    have hf := (h4 v hm).1
    rw [hs] at hf
    exact absurd hf (by decide)
  · intro hs
    have hp : parseRequest app request response explodedPathname
        = processRequestAsHtmlPage app (dispatchChunkParams app request response)
            explodedPathname (dispatchWorld app request response) := by
      rw [parseRequest_eq, if_pos hs]
    have hl : lastResume app request response explodedPathname
        = lastResumeHtml app (dispatchChunkParams app request response) explodedPathname
            (dispatchWorld app request response) := by
      unfold lastResume
      rw [if_pos hs]
    rw [hp, hl]
    exact processRequestAsHtmlPage_responseType _ _ _ _

end AppComponents
